import Mathlib

/-!
# A shallow embedding of the `no_std_io` binary serialization core

Buffers are `List Nat` with each element standing for one byte (`< 256`).
Rust functions that mutate a `&mut [u8]` are modelled as functions that
return the updated buffer alongside their result; a slice write never
changes the buffer's length.  `usize` arithmetic is modelled on `Nat`
(all quantities in play are small and non-negative; the one place where
the source can underflow is modelled explicitly with `Option`).
-/

/-- The error taxonomy of `src/src/error.rs`. -/
inductive Error where
  | InvalidSize (wanted_size offset data_len : Nat)
  | InvalidAlignment (wanted_size source_size source_offset : Nat)
  | InvalidRead (message : String)
  | InvalidWrite (message : String)
deriving DecidableEq, Repr

/-- The `add_error_context` from `src/src/error.rs`: rewrite the offset and
`data_len` of an `InvalidSize` error, pass everything else through. -/
def add_error_context {α : Type} (result : Except Error α) (offset data_len : Nat) :
    Except Error α :=
  match result with
  | .error (.InvalidSize wanted_size error_offset _) =>
      .error (.InvalidSize wanted_size (offset + error_offset) data_len)
  | other => other

/-- Little-endian byte decomposition of a natural number into `w` bytes,
the model of Rust's `uN::to_le_bytes` (least significant byte first). -/
def natToLeBytes : Nat → Nat → List Nat
  | 0, _ => []
  | w + 1, n => n % 256 :: natToLeBytes w (n / 256)

/-- Little-endian recomposition, the model of `uN::from_le_bytes`. -/
def natFromLeBytes (bytes : List Nat) : Nat :=
  bytes.foldr (fun b acc => b + 256 * acc) 0

/-- Big-endian byte decomposition (`uN::to_be_bytes`): most significant
byte first, i.e. the reverse of the little-endian bytes. -/
def natToBeBytes (w n : Nat) : List Nat :=
  (natToLeBytes w n).reverse

/-- Big-endian recomposition (`uN::from_be_bytes`). -/
def natFromBeBytes (bytes : List Nat) : Nat :=
  natFromLeBytes bytes.reverse

/-- Two's-complement representation of an integer in `8*w` bits, the
model of `iN::to_le_bytes`'s bit pattern. -/
def intToNatTwos (w : Nat) (v : Int) : Nat :=
  (v % ((2 : Int) ^ (8 * w))).toNat

/-- Reading back a two's-complement bit pattern as the signed value it
denotes, the model of `iN::from_le_bytes`. -/
def natToIntTwos (w : Nat) (n : Nat) : Int :=
  if n < 2 ^ (8 * w - 1) then (n : Int) else (n : Int) - 2 ^ (8 * w)

/-- The `EndianRead` trait of `src/src/endian/read.rs`.  A `ReadOutput`
is modelled as the pair (data, read_bytes). -/
structure EndianRead (α : Type) where
  try_read_le : List Nat → Except Error (α × Nat)
  try_read_be : List Nat → Except Error (α × Nat)

/-- The `EndianWrite` trait of `src/src/endian/write.rs`.  `try_write_*`
takes the destination slice and returns the result (number of bytes
written, or an error) together with the updated destination. -/
structure EndianWrite (α : Type) where
  get_size : α → Nat
  try_write_le : α → List Nat → Except Error Nat × List Nat
  try_write_be : α → List Nat → Except Error Nat × List Nat

/-- Common body of the `impl EndianRead for uN::try_read_le` blocks in
`src/src/endian/read.rs` (the nine impls are textually identical up to
the width `byte_count = mem::size_of::<uN>()`). -/
def tryReadUIntLe (byte_count : Nat) (bytes : List Nat) : Except Error (Nat × Nat) :=
  if byte_count > bytes.length then
    .error (.InvalidSize byte_count 0 bytes.length)
  else
    .ok (natFromLeBytes (bytes.take byte_count), byte_count)

/-- Common body of the `uN::try_read_be` impls. -/
def tryReadUIntBe (byte_count : Nat) (bytes : List Nat) : Except Error (Nat × Nat) :=
  if byte_count > bytes.length then
    .error (.InvalidSize byte_count 0 bytes.length)
  else
    .ok (natFromBeBytes (bytes.take byte_count), byte_count)

/-- Common body of the `iN::try_read_le` impls: identical to the
unsigned case but the recomposed bits denote a two's-complement value. -/
def tryReadIntLe (byte_count : Nat) (bytes : List Nat) : Except Error (Int × Nat) :=
  if byte_count > bytes.length then
    .error (.InvalidSize byte_count 0 bytes.length)
  else
    .ok (natToIntTwos byte_count (natFromLeBytes (bytes.take byte_count)), byte_count)

/-- Common body of the `iN::try_read_be` impls. -/
def tryReadIntBe (byte_count : Nat) (bytes : List Nat) : Except Error (Int × Nat) :=
  if byte_count > bytes.length then
    .error (.InvalidSize byte_count 0 bytes.length)
  else
    .ok (natToIntTwos byte_count (natFromBeBytes (bytes.take byte_count)), byte_count)

/-- Common body of the `impl EndianWrite for uN::try_write_le` blocks in
`src/src/endian/write.rs`: bounds check first, then
`dst[..byte_count].copy_from_slice(&self.to_le_bytes())`. -/
def tryWriteUIntLe (byte_count : Nat) (v : Nat) (dst : List Nat) :
    Except Error Nat × List Nat :=
  if byte_count > dst.length then
    (.error (.InvalidSize byte_count 0 dst.length), dst)
  else
    (.ok byte_count, natToLeBytes byte_count v ++ dst.drop byte_count)

/-- Common body of the `uN::try_write_be` impls. -/
def tryWriteUIntBe (byte_count : Nat) (v : Nat) (dst : List Nat) :
    Except Error Nat × List Nat :=
  if byte_count > dst.length then
    (.error (.InvalidSize byte_count 0 dst.length), dst)
  else
    (.ok byte_count, natToBeBytes byte_count v ++ dst.drop byte_count)

/-- Common body of the `iN::try_write_le` impls. -/
def tryWriteIntLe (byte_count : Nat) (v : Int) (dst : List Nat) :
    Except Error Nat × List Nat :=
  tryWriteUIntLe byte_count (intToNatTwos byte_count v) dst

/-- Common body of the `iN::try_write_be` impls. -/
def tryWriteIntBe (byte_count : Nat) (v : Int) (dst : List Nat) :
    Except Error Nat × List Nat :=
  tryWriteUIntBe byte_count (intToNatTwos byte_count v) dst

/-- The `EndianRead` impl of an unsigned integer of width `w`. -/
def uintER (w : Nat) : EndianRead Nat := ⟨tryReadUIntLe w, tryReadUIntBe w⟩

/-- The `EndianRead` impl of a signed integer of width `w`. -/
def intER (w : Nat) : EndianRead Int := ⟨tryReadIntLe w, tryReadIntBe w⟩

/-- The `impl EndianRead for u8` .. `for u64` (widths 1, 2, 4, 8). -/
def u8ER : EndianRead Nat := uintER 1

def u16ER : EndianRead Nat := uintER 2

def u32ER : EndianRead Nat := uintER 4

def u64ER : EndianRead Nat := uintER 8

/-- The `impl EndianRead for i8` .. `for i64`. -/
def i8ER : EndianRead Int := intER 1

def i16ER : EndianRead Int := intER 2

def i32ER : EndianRead Int := intER 4

def i64ER : EndianRead Int := intER 8

/-- The `impl EndianRead for bool`: reads one byte via `u8::try_read_le`
(both endiannesses use the little-endian byte read) and maps it to
`byte != 0`. -/
def boolER : EndianRead Bool where
  try_read_le bytes := (tryReadUIntLe 1 bytes).map (fun (b, n) => (b ≠ 0, n))
  try_read_be bytes := (tryReadUIntLe 1 bytes).map (fun (b, n) => (b ≠ 0, n))

/-- The `EndianWrite` impl of an unsigned integer of width `w`
(`get_size` is `mem::size_of`, i.e. `w`). -/
def uintEW (w : Nat) : EndianWrite Nat := ⟨fun _ => w, tryWriteUIntLe w, tryWriteUIntBe w⟩

/-- The `EndianWrite` impl of a signed integer of width `w`. -/
def intEW (w : Nat) : EndianWrite Int := ⟨fun _ => w, tryWriteIntLe w, tryWriteIntBe w⟩

/-- The `impl EndianWrite for u8` .. `for u64`. -/
def u8EW : EndianWrite Nat := uintEW 1

def u16EW : EndianWrite Nat := uintEW 2

def u32EW : EndianWrite Nat := uintEW 4

def u64EW : EndianWrite Nat := uintEW 8

/-- The `impl EndianWrite for i8` .. `for i64`. -/
def i8EW : EndianWrite Int := intEW 1

def i16EW : EndianWrite Int := intEW 2

def i32EW : EndianWrite Int := intEW 4

def i64EW : EndianWrite Int := intEW 8

/-- The `impl EndianWrite for bool`: one byte, `true` as `0x01`, `false` as
`0x00`, identical in both endiannesses. -/
def boolEW : EndianWrite Bool where
  get_size _ := 1
  try_write_le v dst :=
    if 1 > dst.length then (.error (.InvalidSize 1 0 dst.length), dst)
    else (.ok 1, (if v then 1 else 0) :: dst.drop 1)
  try_write_be v dst :=
    if 1 > dst.length then (.error (.InvalidSize 1 0 dst.length), dst)
    else (.ok 1, (if v then 1 else 0) :: dst.drop 1)

/-- The `impl EndianWrite for ()` from `src/src/endian/write.rs`: zero
size, writes nothing, always succeeds. -/
def unitEW : EndianWrite Unit where
  get_size _ := 0
  try_write_le _ dst := (.ok 0, dst)
  try_write_be _ dst := (.ok 0, dst)

/-- Modelled from the spec: the `EndianRead` impl for the zero-size unit
value is not under `src/` (only the spec's §4.2 describes it): it
consumes 0 bytes and always succeeds. -/
def unitER : EndianRead Unit where
  try_read_le _ := .ok ((), 0)
  try_read_be _ := .ok ((), 0)

/-- Modelled from the spec: the `EndianRead` impl for fixed-size byte
arrays `[u8; N]` is not under `src/` (its callers in `src/macros/tests`
and the spec's §4.2 are): copy `w` bytes verbatim, endianness
invariant, `InvalidSize` when fewer than `w` bytes are available. -/
def byteArrayER (w : Nat) : EndianRead (List Nat) where
  try_read_le bytes :=
    if w > bytes.length then .error (.InvalidSize w 0 bytes.length)
    else .ok (bytes.take w, w)
  try_read_be bytes :=
    if w > bytes.length then .error (.InvalidSize w 0 bytes.length)
    else .ok (bytes.take w, w)

/-- Modelled from the spec: the `EndianWrite` impl for fixed-size byte
arrays, copying the bytes verbatim in both endiannesses. -/
def byteArrayEW (w : Nat) : EndianWrite (List Nat) where
  get_size _ := w
  try_write_le v dst :=
    if w > dst.length then (.error (.InvalidSize w 0 dst.length), dst)
    else (.ok w, v.take w ++ dst.drop w)
  try_write_be v dst :=
    if w > dst.length then (.error (.InvalidSize w 0 dst.length), dst)
    else (.ok w, v.take w ++ dst.drop w)

/-- Modelled from the spec: the `f32` codec is not under `src/`; per
§4.2/§6 a float is serialized as its IEEE-754 bit pattern with the same
byte order as a 4-byte integer.  The value is modelled by its 32-bit
pattern. -/
def f32ER : EndianRead Nat := uintER 4

/-- Modelled from the spec: `f32` encode, bit pattern as a 4-byte
integer. -/
def f32EW : EndianWrite Nat := uintEW 4

/-- Modelled from the spec: `f64` decode, bit pattern as an 8-byte
integer. -/
def f64ER : EndianRead Nat := uintER 8

/-- Modelled from the spec: `f64` encode, bit pattern as an 8-byte
integer. -/
def f64EW : EndianWrite Nat := uintEW 8

theorem natToLeBytes_length (w n : Nat) : (natToLeBytes w n).length = w := by
  induction w generalizing n with
  | zero => rfl
  | succ w ih => simp [natToLeBytes, ih]

theorem natFromLeBytes_cons (b : Nat) (rest : List Nat) :
    natFromLeBytes (b :: rest) = b + 256 * natFromLeBytes rest := by
  simp [natFromLeBytes]

theorem natFromLeBytes_natToLeBytes (w n : Nat) :
    natFromLeBytes (natToLeBytes w n) = n % 2 ^ (8 * w) := by
  induction w generalizing n with
  | zero => simp [natToLeBytes, natFromLeBytes, Nat.mod_one]
  | succ w ih =>
      rw [natToLeBytes, natFromLeBytes_cons, ih]
      have hpow : 2 ^ (8 * (w + 1)) = 256 * 2 ^ (8 * w) := by
        have h8 : 8 * (w + 1) = 8 + 8 * w := by ring
        rw [h8, pow_add]; norm_num
      have hmod : n % (256 * 2 ^ (8 * w)) % 256 = n % 256 :=
        Nat.mod_mod_of_dvd n ⟨2 ^ (8 * w), rfl⟩
      have hdiv : n / 256 % 2 ^ (8 * w) = n % (256 * 2 ^ (8 * w)) / 256 :=
        (Nat.mod_mul_right_div_self n 256 (2 ^ (8 * w))).symm
      rw [hpow, hdiv, ← hmod]
      exact Nat.mod_add_div _ 256

theorem natFromLeBytes_natToLeBytes_of_lt {w n : Nat} (h : n < 2 ^ (8 * w)) :
    natFromLeBytes (natToLeBytes w n) = n := by
  rw [natFromLeBytes_natToLeBytes, Nat.mod_eq_of_lt h]

theorem natToIntTwos_intToNatTwos {w : Nat} (hw : 1 ≤ w) {v : Int}
    (hlo : -(2 ^ (8 * w - 1) : Int) ≤ v) (hhi : v < (2 ^ (8 * w - 1) : Int)) :
    natToIntTwos w (intToNatTwos w v) = v := by
  have hsplit : 8 * w = (8 * w - 1) + 1 := by omega
  have hM : ((2 : Int) ^ (8 * w)) = 2 * 2 ^ (8 * w - 1) := by
    conv_lhs => rw [hsplit]
    rw [pow_succ]; ring
  have hApos : (0 : Int) < 2 ^ (8 * w - 1) := by positivity
  have hcastpow : ((2 ^ (8 * w - 1) : Nat) : Int) = 2 ^ (8 * w - 1) := by push_cast; ring
  unfold natToIntTwos intToNatTwos
  by_cases hv : 0 ≤ v
  · have hlt : v < (2 : Int) ^ (8 * w) := by rw [hM]; linarith
    have hmod : v % (2 : Int) ^ (8 * w) = v := Int.emod_eq_of_lt hv hlt
    rw [hmod]
    have htn : ((v.toNat : Int)) = v := Int.toNat_of_nonneg hv
    have h2 : v.toNat < 2 ^ (8 * w - 1) := by
      have h1 : ((v.toNat : Int)) < ((2 ^ (8 * w - 1) : Nat) : Int) := by
        rw [htn, hcastpow]; exact hhi
      exact_mod_cast h1
    rw [if_pos h2, htn]
  · push_neg at hv
    have hvM : 0 ≤ v + 2 ^ (8 * w) := by rw [hM]; linarith
    have hvMlt : v + 2 ^ (8 * w) < 2 ^ (8 * w) := by linarith
    have hmod : v % (2 : Int) ^ (8 * w) = v + 2 ^ (8 * w) := by
      have hshift : (v + 2 ^ (8 * w) * 1) % 2 ^ (8 * w) = v % 2 ^ (8 * w) :=
        Int.add_mul_emod_self_left v (2 ^ (8 * w)) 1
      rw [mul_one] at hshift
      rw [← hshift, Int.emod_eq_of_lt hvM hvMlt]
    rw [hmod]
    have htn : (((v + 2 ^ (8 * w)).toNat : Int)) = v + 2 ^ (8 * w) :=
      Int.toNat_of_nonneg hvM
    have h2 : ¬((v + 2 ^ (8 * w)).toNat < 2 ^ (8 * w - 1)) := by
      intro hcon
      have h1 : (((v + 2 ^ (8 * w)).toNat : Int)) < ((2 ^ (8 * w - 1) : Nat) : Int) := by
        exact_mod_cast hcon
      rw [htn, hcastpow] at h1
      have := hM
      linarith
    rw [if_neg h2, htn]
    ring

/-- The `Writer::get_mut_slice_at_offset`: the suffix of the buffer at
`offset`, or the empty slice when `offset` is at or past the end. -/
def get_mut_slice_at_offset (data : List Nat) (offset : Nat) : List Nat :=
  if offset ≥ data.length then [] else data.drop offset

/-- The `Writer::get_sized_mut_slice` (fixed-capacity trait default):
bounds check, then the sub-slice. -/
def get_sized_mut_slice (data : List Nat) (offset length : Nat) :
    Except Error (List Nat) :=
  if data.length < offset + length then
    .error (.InvalidSize length offset data.length)
  else .ok ((data.drop offset).take length)

/-- The `Writer::write_bytes`: bounds check via `get_sized_mut_slice`, then
`copy_from_slice`.  Returns the count and the updated buffer; the
buffer is untouched when the bounds check fails. -/
def write_bytes (data : List Nat) (offset : Nat) (bytes : List Nat) :
    Except Error Nat × List Nat :=
  if data.length < offset + bytes.length then
    (.error (.InvalidSize bytes.length offset data.length), data)
  else
    (.ok bytes.length, data.take offset ++ bytes ++ data.drop (offset + bytes.length))

/-- The `Writer::write_le` (trait default, fixed-capacity buffers): hand
the suffix at `offset` to the value's `try_write_le` and enrich any
`InvalidSize` error with the absolute offset and the buffer's total
length. -/
def writer_write_le {α : Type} (ew : EndianWrite α) (data : List Nat) (offset : Nat)
    (v : α) : Except Error Nat × List Nat :=
  let r := ew.try_write_le v (get_mut_slice_at_offset data offset)
  (add_error_context r.1 offset data.length, data.take offset ++ r.2)

/-- The `Writer::write_be` (trait default, fixed-capacity buffers). -/
def writer_write_be {α : Type} (ew : EndianWrite α) (data : List Nat) (offset : Nat)
    (v : α) : Except Error Nat × List Nat :=
  let r := ew.try_write_be v (get_mut_slice_at_offset data offset)
  (add_error_context r.1 offset data.length, data.take offset ++ r.2)

/-- The `impl Writer for Vec<u8>::write_le`: when `offset + get_size`
exceeds the current length, `resize(offset_end, 0)` first (zero-filling
the new tail), then delegate to `try_write_le` on `&mut self[offset..]`
with error enrichment. -/
def vec_write_le {α : Type} (ew : EndianWrite α) (data : List Nat) (offset : Nat)
    (v : α) : Except Error Nat × List Nat :=
  let offset_end := offset + ew.get_size v
  let grown := if offset_end > data.length
    then data ++ List.replicate (offset_end - data.length) 0
    else data
  let r := ew.try_write_le v (grown.drop offset)
  (add_error_context r.1 offset grown.length, grown.take offset ++ r.2)

/-- The `impl Writer for Vec<u8>::write_be`. -/
def vec_write_be {α : Type} (ew : EndianWrite α) (data : List Nat) (offset : Nat)
    (v : α) : Except Error Nat × List Nat :=
  let offset_end := offset + ew.get_size v
  let grown := if offset_end > data.length
    then data ++ List.replicate (offset_end - data.length) 0
    else data
  let r := ew.try_write_be v (grown.drop offset)
  (add_error_context r.1 offset grown.length, grown.take offset ++ r.2)

/-- The two-field `InvalidSize` value constructed by
`src/src/reader.rs`.  These fields do not exist on the crate's `Error`
type in `src/src/error.rs`, so the reader file as given cannot compile
against its own crate. -/
structure SrcReaderInvalidSize where
  wanted_size : Nat
  available_size : Nat
deriving DecidableEq, Repr

/-- The `Reader::get_slice_of_size` exactly as written in
`src/src/reader.rs`.  `none` models the unchecked `usize` subtraction
`data.len() - offset` underflowing when `offset` exceeds the buffer
length (a panic in debug builds, a wrapped garbage value in release
builds; either way no well-formed error is produced). -/
def get_slice_of_size (data : List Nat) (offset size : Nat) :
    Option (Except SrcReaderInvalidSize (List Nat)) :=
  let offset_end := offset + size
  if data.length < offset_end then
    if offset ≤ data.length then
      some (.error ⟨size, data.length - offset⟩)
    else none
  else some (.ok ((data.drop offset).take size))

/-- The `Reader::get_sized_slice` from `src/src/reader.rs`: the same body
with `result_size = mem::size_of::<T>()`. -/
def get_sized_slice (data : List Nat) (result_size offset : Nat) :
    Option (Except SrcReaderInvalidSize (List Nat)) :=
  if data.length < offset + result_size then
    if offset ≤ data.length then
      some (.error ⟨result_size, data.length - offset⟩)
    else none
  else some (.ok ((data.drop offset).take result_size))

/-- The `Reader::read_le` exactly as written in `src/src/reader.rs`: carve
`mem::size_of::<T>()` bytes with `get_sized_slice` and hand them to an
infallible `T::read_le` — a method the `EndianRead` trait of
`src/src/endian/read.rs` does not declare.  The model stops at the
carved slice, which already exhibits the behavior of the sizing and
bounds logic. -/
def read_le_src (data : List Nat) (static_size offset : Nat) :
    Option (Except SrcReaderInvalidSize (List Nat)) :=
  get_sized_slice data static_size offset

/-- A `StreamContainer`: a byte buffer together with its cursor
(`src/src/stream_container.rs`). -/
structure StreamContainer where
  data : List Nat
  index : Nat
deriving DecidableEq, Repr

/-- The `Cursor::increment_by`. -/
def StreamContainer.incrementBy (s : StreamContainer) (count : Nat) : StreamContainer :=
  { s with index := s.index + count }

/-- The `Cursor::swap_incremented_index`: return the current index and
advance by `size`. -/
def StreamContainer.swapIncrementedIndex (s : StreamContainer) (size : Nat) : Nat × StreamContainer :=
  (s.index, s.incrementBy size)

/-- Modelled from the spec: `Reader::read_le_with_output`, which
`src/src/stream/reader.rs` calls, is absent from `src/src/reader.rs`.
Per §4.3/§4.1 it delegates to the type's `try_read_le` on the bytes
from `offset` on and rewrites any `InvalidSize` offset to the absolute
position in the whole buffer. -/
def read_le_with_output {α : Type} (er : EndianRead α) (data : List Nat)
    (offset : Nat) : Except Error (α × Nat) :=
  add_error_context (er.try_read_le (data.drop offset)) offset data.length

/-- Modelled from the spec: the big-endian counterpart of
`read_le_with_output`. -/
def read_be_with_output {α : Type} (er : EndianRead α) (data : List Nat)
    (offset : Nat) : Except Error (α × Nat) :=
  add_error_context (er.try_read_be (data.drop offset)) offset data.length

/-- The `StreamReader::read_stream_le` from `src/src/stream/reader.rs`:
read at the current index, then `increment_by` the reported count; the
cursor is untouched when the read fails. -/
def StreamContainer.readStreamLe {α : Type} (er : EndianRead α) (s : StreamContainer) :
    Except Error α × StreamContainer :=
  match read_le_with_output er s.data s.index with
  | .ok (v, n) => (.ok v, s.incrementBy n)
  | .error e => (.error e, s)

/-- The `StreamReader::read_stream_be`. -/
def StreamContainer.readStreamBe {α : Type} (er : EndianRead α) (s : StreamContainer) :
    Except Error α × StreamContainer :=
  match read_be_with_output er s.data s.index with
  | .ok (v, n) => (.ok v, s.incrementBy n)
  | .error e => (.error e, s)

/-- The `Reader::read_byte_vec`, which is `get_slice_of_size` (the
`src/src/reader.rs` version) converted to an owned vector. -/
def read_byte_vec (data : List Nat) (offset size : Nat) :
    Option (Except SrcReaderInvalidSize (List Nat)) :=
  get_slice_of_size data offset size

/-- The `StreamReader::read_byte_stream` from `src/src/stream/reader.rs`:
`swap_incremented_index(size)` advances the cursor by `size` *before*
the read is attempted, then `read_byte_vec` runs at the old index. -/
def StreamContainer.readByteStream (s : StreamContainer) (size : Nat) :
    Option (Except SrcReaderInvalidSize (List Nat)) × StreamContainer :=
  let p := s.swapIncrementedIndex size
  (read_byte_vec s.data p.1 size, p.2)

/-- The `StreamWriter::write_stream_le` from `src/src/stream/writer.rs`
over a slice-backed container: `Writer::write_le` at the current
index, advancing the cursor by the bytes written only on success. -/
def StreamContainer.writeStreamLe {α : Type} (ew : EndianWrite α) (v : α) (s : StreamContainer) :
    Except Error Nat × StreamContainer :=
  let r := writer_write_le ew s.data s.index v
  match r.1 with
  | .ok n => (.ok n, { data := r.2, index := s.index + n })
  | .error e => (.error e, { data := r.2, index := s.index })

/-- The `StreamWriter::write_stream_be`. -/
def StreamContainer.writeStreamBe {α : Type} (ew : EndianWrite α) (v : α) (s : StreamContainer) :
    Except Error Nat × StreamContainer :=
  let r := writer_write_be ew s.data s.index v
  match r.1 with
  | .ok n => (.ok n, { data := r.2, index := s.index + n })
  | .error e => (.error e, { data := r.2, index := s.index })

/-- The `StreamWriter::checked_write_stream_le`: the cursor is advanced by
`mem::size_of::<T>()` — the static size, passed here as `static_size` —
by `swap_incremented_index_for_type` *before* the checked write, which
returns `0` instead of an error. -/
def StreamContainer.checkedWriteStreamLe {α : Type} (static_size : Nat) (ew : EndianWrite α)
    (v : α) (s : StreamContainer) : Nat × StreamContainer :=
  let p := s.swapIncrementedIndex static_size
  let r := writer_write_le ew s.data p.1 v
  match r.1 with
  | .ok n => (n, { data := r.2, index := p.2.index })
  | .error _ => (0, { data := r.2, index := p.2.index })

/-- The `StreamWriter::write_stream_bytes`: the cursor is advanced by
`bytes.len()` by `swap_incremented_index` before `write_bytes` runs at
the old index. -/
def StreamContainer.writeStreamBytes (s : StreamContainer) (bytes : List Nat) :
    Except Error Nat × StreamContainer :=
  let p := s.swapIncrementedIndex bytes.length
  let r := write_bytes s.data p.1 bytes
  (r.1, { data := r.2, index := p.2.index })

/-- The derived `EndianRead::try_read_le` for
`struct Test { first: u8, second: u32 }` of
`src/macros/tests/endian_read.rs`, by instantiating the template of
`src/macros/src/endian_read.rs`: a stream over the input bytes, one
`read_stream_le` per field in declaration order, and the final cursor
as the consumed count. -/
def testTryReadLe (bytes : List Nat) : Except Error ((Nat × Nat) × Nat) :=
  let s0 : StreamContainer := ⟨bytes, 0⟩
  match s0.readStreamLe u8ER with
  | (.error e, _) => .error e
  | (.ok first, s1) =>
    match s1.readStreamLe u32ER with
    | (.error e, _) => .error e
    | (.ok second, s2) => .ok ((first, second), s2.index)

/-- The derived `EndianRead::try_read_be` for the same struct. -/
def testTryReadBe (bytes : List Nat) : Except Error ((Nat × Nat) × Nat) :=
  let s0 : StreamContainer := ⟨bytes, 0⟩
  match s0.readStreamBe u8ER with
  | (.error e, _) => .error e
  | (.ok first, s1) =>
    match s1.readStreamBe u32ER with
    | (.error e, _) => .error e
    | (.ok second, s2) => .ok ((first, second), s2.index)

/-- The derived `EndianWrite::try_write_le` for
`struct Test { first: u8, second: u32 }`, by instantiating the template
of `src/macros/src/endian_write.rs`: a stream over the destination, one
`write_stream_le` per field in declaration order, and the final cursor
as the written count. -/
def testTryWriteLe (first second : Nat) (dst : List Nat) :
    Except Error Nat × List Nat :=
  let s0 : StreamContainer := ⟨dst, 0⟩
  match s0.writeStreamLe u8EW first with
  | (.error e, s1) => (.error e, s1.data)
  | (.ok _, s1) =>
    match s1.writeStreamLe u32EW second with
    | (.error e, s2) => (.error e, s2.data)
    | (.ok _, s2) => (.ok s2.index, s2.data)

/-- The derived `EndianWrite::try_write_be` for the same struct. -/
def testTryWriteBe (first second : Nat) (dst : List Nat) :
    Except Error Nat × List Nat :=
  let s0 : StreamContainer := ⟨dst, 0⟩
  match s0.writeStreamBe u8EW first with
  | (.error e, s1) => (.error e, s1.data)
  | (.ok _, s1) =>
    match s1.writeStreamBe u32EW second with
    | (.error e, s2) => (.error e, s2.data)
    | (.ok _, s2) => (.ok s2.index, s2.data)

/-- The derived `get_size` for the padded struct
`{ pad_before(1) first: u8, pad_before(2) second: u32 }` (the example
of spec §8), by instantiating `create_get_size_field` of
`src/macros/src/endian_write.rs`: `size += pad_before;
size += field.get_size()` per field in declaration order. -/
def padTestGetSize : Nat := (1 + 1) + (2 + 4)

/-- The derived `EndianWrite::try_write_le` for the padded struct
`{ pad_before(1) first: u8, pad_before(2) second: u32 }`, by
instantiating `create_write_field` of `src/macros/src/endian_write.rs`:
`Cursor::increment_by(pad_before)` (bytes skipped, not written), then
`write_stream_le(&field)?`, per field in declaration order. -/
def padTestTryWriteLe (first second : Nat) (dst : List Nat) :
    Except Error Nat × List Nat :=
  let s0 : StreamContainer := ⟨dst, 0⟩
  let s0 := s0.incrementBy 1
  match s0.writeStreamLe u8EW first with
  | (.error e, s1) => (.error e, s1.data)
  | (.ok _, s1) =>
    let s1 := s1.incrementBy 2
    match s1.writeStreamLe u32EW second with
    | (.error e, s2) => (.error e, s2.data)
    | (.ok _, s2) => (.ok s2.index, s2.data)

/-- The derived `EndianWrite::try_write_be` for the same padded
struct. -/
def padTestTryWriteBe (first second : Nat) (dst : List Nat) :
    Except Error Nat × List Nat :=
  let s0 : StreamContainer := ⟨dst, 0⟩
  let s0 := s0.incrementBy 1
  match s0.writeStreamBe u8EW first with
  | (.error e, s1) => (.error e, s1.data)
  | (.ok _, s1) =>
    let s1 := s1.incrementBy 2
    match s1.writeStreamBe u32EW second with
    | (.error e, s2) => (.error e, s2.data)
    | (.ok _, s2) => (.ok s2.index, s2.data)

/-- The item loop of `ListContainer<u32>::try_read_le` from
`src/macros/tests/endian_read.rs`: read `k` little-endian `u32` values
from the stream, stopping at the first error. -/
def readU32ListLoop : Nat → StreamContainer → Except Error (List Nat × StreamContainer)
  | 0, s => .ok ([], s)
  | k + 1, s =>
    match s.readStreamLe u32ER with
    | (.error e, _) => .error e
    | (.ok v, s1) =>
      match readU32ListLoop k s1 with
      | .error e => .error e
      | .ok (vs, s2) => .ok (v :: vs, s2)

/-- The `ListContainer<u32>::try_read_le` from
`src/macros/tests/endian_read.rs`: a count byte followed by that many
little-endian `u32` items read from a stream over the remaining bytes;
the consumed count is the final stream index plus one. -/
def listU32TryReadLe (bytes : List Nat) : Except Error (List Nat × Nat) :=
  match bytes with
  | [] => .error (.InvalidSize 1 0 0)
  | b :: rest =>
    match readU32ListLoop b ⟨rest, 0⟩ with
    | .error e => .error e
    | .ok (vs, s) => .ok (vs, s.index + 1)

theorem natToBeBytes_length (w n : Nat) : (natToBeBytes w n).length = w := by
  simp [natToBeBytes, natToLeBytes_length]

theorem tryWriteUIntLe_ok {w v : Nat} {dst : List Nat} (h : w ≤ dst.length) :
    tryWriteUIntLe w v dst = (.ok w, natToLeBytes w v ++ dst.drop w) := by
  unfold tryWriteUIntLe
  rw [if_neg (by omega)]

theorem tryWriteUIntLe_err {w v : Nat} {dst : List Nat} (h : dst.length < w) :
    tryWriteUIntLe w v dst = (.error (.InvalidSize w 0 dst.length), dst) := by
  unfold tryWriteUIntLe
  rw [if_pos (by omega)]

theorem tryWriteUIntBe_ok {w v : Nat} {dst : List Nat} (h : w ≤ dst.length) :
    tryWriteUIntBe w v dst = (.ok w, natToBeBytes w v ++ dst.drop w) := by
  unfold tryWriteUIntBe
  rw [if_neg (by omega)]

theorem tryWriteUIntBe_err {w v : Nat} {dst : List Nat} (h : dst.length < w) :
    tryWriteUIntBe w v dst = (.error (.InvalidSize w 0 dst.length), dst) := by
  unfold tryWriteUIntBe
  rw [if_pos (by omega)]

theorem tryReadUIntLe_ok {w : Nat} {bytes : List Nat} (h : w ≤ bytes.length) :
    tryReadUIntLe w bytes = .ok (natFromLeBytes (bytes.take w), w) := by
  unfold tryReadUIntLe
  rw [if_neg (by omega)]

theorem tryReadUIntLe_err {w : Nat} {bytes : List Nat} (h : bytes.length < w) :
    tryReadUIntLe w bytes = .error (.InvalidSize w 0 bytes.length) := by
  unfold tryReadUIntLe
  rw [if_pos (by omega)]

theorem tryReadUIntBe_ok {w : Nat} {bytes : List Nat} (h : w ≤ bytes.length) :
    tryReadUIntBe w bytes = .ok (natFromBeBytes (bytes.take w), w) := by
  unfold tryReadUIntBe
  rw [if_neg (by omega)]

theorem tryReadUIntBe_err {w : Nat} {bytes : List Nat} (h : bytes.length < w) :
    tryReadUIntBe w bytes = .error (.InvalidSize w 0 bytes.length) := by
  unfold tryReadUIntBe
  rw [if_pos (by omega)]

theorem tryReadUIntLe_natToLeBytes (w v : Nat) (tail : List Nat) :
    tryReadUIntLe w (natToLeBytes w v ++ tail) = .ok (v % 2 ^ (8 * w), w) := by
  have hlen : (natToLeBytes w v).length = w := natToLeBytes_length w v
  rw [tryReadUIntLe_ok (by simp [hlen])]
  have htake : (natToLeBytes w v ++ tail).take w = natToLeBytes w v := by
    exact List.take_left' hlen
  rw [htake, natFromLeBytes_natToLeBytes]

theorem tryReadUIntBe_natToBeBytes (w v : Nat) (tail : List Nat) :
    tryReadUIntBe w (natToBeBytes w v ++ tail) = .ok (v % 2 ^ (8 * w), w) := by
  have hlen : (natToBeBytes w v).length = w := natToBeBytes_length w v
  rw [tryReadUIntBe_ok (by simp [hlen])]
  have htake : (natToBeBytes w v ++ tail).take w = natToBeBytes w v := by
    exact List.take_left' hlen
  rw [htake]
  unfold natFromBeBytes natToBeBytes
  rw [List.reverse_reverse, natFromLeBytes_natToLeBytes]

theorem intToNatTwos_lt (w : Nat) (v : Int) : intToNatTwos w v < 2 ^ (8 * w) := by
  unfold intToNatTwos
  have hpos : (0 : Int) < 2 ^ (8 * w) := by positivity
  have h1 : v % 2 ^ (8 * w) < 2 ^ (8 * w) := Int.emod_lt_of_pos v hpos
  have h0 : 0 ≤ v % 2 ^ (8 * w) := Int.emod_nonneg v (ne_of_gt hpos)
  have h2 : ((2 ^ (8 * w) : Nat) : Int) = 2 ^ (8 * w) := by push_cast; ring
  omega

theorem tryReadIntLe_natToLeBytes (w v : Nat) (tail : List Nat) :
    tryReadIntLe w (natToLeBytes w v ++ tail)
      = .ok (natToIntTwos w (v % 2 ^ (8 * w)), w) := by
  have hlen : (natToLeBytes w v).length = w := natToLeBytes_length w v
  unfold tryReadIntLe
  rw [if_neg (by simp [hlen])]
  have htake : (natToLeBytes w v ++ tail).take w = natToLeBytes w v := by
    exact List.take_left' hlen
  rw [htake, natFromLeBytes_natToLeBytes]

theorem tryReadIntBe_natToBeBytes (w v : Nat) (tail : List Nat) :
    tryReadIntBe w (natToBeBytes w v ++ tail)
      = .ok (natToIntTwos w (v % 2 ^ (8 * w)), w) := by
  have hlen : (natToBeBytes w v).length = w := natToBeBytes_length w v
  unfold tryReadIntBe
  rw [if_neg (by simp [hlen])]
  have htake : (natToBeBytes w v ++ tail).take w = natToBeBytes w v := by
    exact List.take_left' hlen
  rw [htake]
  unfold natFromBeBytes natToBeBytes
  rw [List.reverse_reverse, natFromLeBytes_natToLeBytes]

theorem uint_roundtrip_le (w v : Nat) (h : v < 2 ^ (8 * w)) :
    tryReadUIntLe w ((tryWriteUIntLe w v (List.replicate w 0)).2) = .ok (v, w) := by
  rw [tryWriteUIntLe_ok (by simp)]
  simp only [List.drop_replicate, Nat.sub_self, List.replicate_zero, List.append_nil]
  have hr := tryReadUIntLe_natToLeBytes w v []
  rw [List.append_nil] at hr
  rw [hr, Nat.mod_eq_of_lt h]

theorem uint_roundtrip_be (w v : Nat) (h : v < 2 ^ (8 * w)) :
    tryReadUIntBe w ((tryWriteUIntBe w v (List.replicate w 0)).2) = .ok (v, w) := by
  rw [tryWriteUIntBe_ok (by simp)]
  simp only [List.drop_replicate, Nat.sub_self, List.replicate_zero, List.append_nil]
  have hr := tryReadUIntBe_natToBeBytes w v []
  rw [List.append_nil] at hr
  rw [hr, Nat.mod_eq_of_lt h]

theorem int_roundtrip_le (w : Nat) (hw : 1 ≤ w) (v : Int)
    (hlo : -(2 ^ (8 * w - 1) : Int) ≤ v) (hhi : v < (2 ^ (8 * w - 1) : Int)) :
    tryReadIntLe w ((tryWriteIntLe w v (List.replicate w 0)).2) = .ok (v, w) := by
  unfold tryWriteIntLe
  rw [tryWriteUIntLe_ok (by simp)]
  simp only [List.drop_replicate, Nat.sub_self, List.replicate_zero, List.append_nil]
  have hr := tryReadIntLe_natToLeBytes w (intToNatTwos w v) []
  rw [List.append_nil] at hr
  rw [hr, Nat.mod_eq_of_lt (intToNatTwos_lt w v), natToIntTwos_intToNatTwos hw hlo hhi]

theorem int_roundtrip_be (w : Nat) (hw : 1 ≤ w) (v : Int)
    (hlo : -(2 ^ (8 * w - 1) : Int) ≤ v) (hhi : v < (2 ^ (8 * w - 1) : Int)) :
    tryReadIntBe w ((tryWriteIntBe w v (List.replicate w 0)).2) = .ok (v, w) := by
  unfold tryWriteIntBe
  rw [tryWriteUIntBe_ok (by simp)]
  simp only [List.drop_replicate, Nat.sub_self, List.replicate_zero, List.append_nil]
  have hr := tryReadIntBe_natToBeBytes w (intToNatTwos w v) []
  rw [List.append_nil] at hr
  rw [hr, Nat.mod_eq_of_lt (intToNatTwos_lt w v), natToIntTwos_intToNatTwos hw hlo hhi]

theorem writeStreamLe_uint_ok (w v : Nat) (s : StreamContainer) (hw : 1 ≤ w)
    (h : s.index + w ≤ s.data.length) :
    s.writeStreamLe (uintEW w) v
      = (.ok w,
          ⟨s.data.take s.index ++ (natToLeBytes w v ++ s.data.drop (s.index + w)),
            s.index + w⟩) := by
  have hidx : ¬ s.index ≥ s.data.length := by omega
  have hlen : w ≤ (s.data.drop s.index).length := by
    rw [List.length_drop]; omega
  unfold StreamContainer.writeStreamLe writer_write_le get_mut_slice_at_offset
  rw [if_neg hidx]
  have hstep : (uintEW w).try_write_le v (s.data.drop s.index)
      = (.ok w, natToLeBytes w v ++ (s.data.drop s.index).drop w) :=
    tryWriteUIntLe_ok hlen
  rw [hstep]
  simp only [add_error_context, List.drop_drop]

theorem writeStreamBe_uint_ok (w v : Nat) (s : StreamContainer) (hw : 1 ≤ w)
    (h : s.index + w ≤ s.data.length) :
    s.writeStreamBe (uintEW w) v
      = (.ok w,
          ⟨s.data.take s.index ++ (natToBeBytes w v ++ s.data.drop (s.index + w)),
            s.index + w⟩) := by
  have hidx : ¬ s.index ≥ s.data.length := by omega
  have hlen : w ≤ (s.data.drop s.index).length := by
    rw [List.length_drop]; omega
  unfold StreamContainer.writeStreamBe writer_write_be get_mut_slice_at_offset
  rw [if_neg hidx]
  have hstep : (uintEW w).try_write_be v (s.data.drop s.index)
      = (.ok w, natToBeBytes w v ++ (s.data.drop s.index).drop w) :=
    tryWriteUIntBe_ok hlen
  rw [hstep]
  simp only [add_error_context, List.drop_drop]

theorem readStreamLe_uint_ok (w v : Nat) (tail : List Nat) (s : StreamContainer)
    (h : s.data.drop s.index = natToLeBytes w v ++ tail) :
    s.readStreamLe (uintER w) = (.ok (v % 2 ^ (8 * w)), ⟨s.data, s.index + w⟩) := by
  unfold StreamContainer.readStreamLe read_le_with_output
  have hstep : (uintER w).try_read_le (s.data.drop s.index) = .ok (v % 2 ^ (8 * w), w) := by
    rw [show (uintER w).try_read_le = tryReadUIntLe w from rfl, h,
      tryReadUIntLe_natToLeBytes]
  rw [hstep]
  rfl

theorem readStreamBe_uint_ok (w v : Nat) (tail : List Nat) (s : StreamContainer)
    (h : s.data.drop s.index = natToBeBytes w v ++ tail) :
    s.readStreamBe (uintER w) = (.ok (v % 2 ^ (8 * w)), ⟨s.data, s.index + w⟩) := by
  unfold StreamContainer.readStreamBe read_be_with_output
  have hstep : (uintER w).try_read_be (s.data.drop s.index) = .ok (v % 2 ^ (8 * w), w) := by
    rw [show (uintER w).try_read_be = tryReadUIntBe w from rfl, h,
      tryReadUIntBe_natToBeBytes]
  rw [hstep]
  rfl

/-- The `OffsetErrorTest` from the `write_le` tests of `src/src/writer.rs`:
`get_size` 0, always failing with
`InvalidSize{wanted_size: 8, offset: 1, data_len: 0}`. -/
def offsetErrEW : EndianWrite Nat :=
  ⟨fun _ => 0, fun _ dst => (.error (.InvalidSize 8 1 0), dst),
    fun _ dst => (.error (.InvalidSize 8 1 0), dst)⟩

/-- The `CustomErrorTest` from the same tests: always failing with
`InvalidRead "Custom error!"`. -/
def customErrEW : EndianWrite Nat :=
  ⟨fun _ => 0, fun _ dst => (.error (.InvalidRead "Custom error!"), dst),
    fun _ dst => (.error (.InvalidRead "Custom error!"), dst)⟩

/-- C1: a compound write at absolute offset `O` whose delegated
sub-operation fails with `InvalidSize{wanted_size, offset: o, ..}`
returns `InvalidSize{wanted_size, offset: O + o, data_len: L}` with `L`
the caller's total buffer length, every other error kind is returned
unchanged, and `Writer::write_le`/`write_be` apply exactly this
rewriting (via `add_error_context`) to the error of the value's
`try_write_le`/`try_write_be`. -/
theorem c1_offset_rewriting :
    (∀ (α : Type) (offset L ws o dl : Nat),
      add_error_context (α := α) (.error (.InvalidSize ws o dl)) offset L
        = .error (.InvalidSize ws (offset + o) L))
    ∧ (∀ (α : Type) (offset L : Nat) (e : Error),
      (∀ ws o dl, e ≠ .InvalidSize ws o dl) →
      add_error_context (α := α) (.error e) offset L = .error e)
    ∧ (∀ (α : Type) (ew : EndianWrite α) (data : List Nat) (offset : Nat) (v : α)
        (ws o dl : Nat),
      (ew.try_write_le v (get_mut_slice_at_offset data offset)).1
          = .error (.InvalidSize ws o dl) →
      (writer_write_le ew data offset v).1
          = .error (.InvalidSize ws (offset + o) data.length))
    ∧ (∀ (α : Type) (ew : EndianWrite α) (data : List Nat) (offset : Nat) (v : α)
        (e : Error),
      (∀ ws o dl, e ≠ .InvalidSize ws o dl) →
      (ew.try_write_le v (get_mut_slice_at_offset data offset)).1 = .error e →
      (writer_write_le ew data offset v).1 = .error e)
    ∧ (∀ (α : Type) (ew : EndianWrite α) (data : List Nat) (offset : Nat) (v : α)
        (ws o dl : Nat),
      (ew.try_write_be v (get_mut_slice_at_offset data offset)).1
          = .error (.InvalidSize ws o dl) →
      (writer_write_be ew data offset v).1
          = .error (.InvalidSize ws (offset + o) data.length))
    ∧ (∀ (α : Type) (ew : EndianWrite α) (data : List Nat) (offset : Nat) (v : α)
        (e : Error),
      (∀ ws o dl, e ≠ .InvalidSize ws o dl) →
      (ew.try_write_be v (get_mut_slice_at_offset data offset)).1 = .error e →
      (writer_write_be ew data offset v).1 = .error e) := by
  refine ⟨fun α offset L ws o dl => rfl, ?_, ?_, ?_, ?_, ?_⟩
  · intro α offset L e h
    cases e with
    | InvalidSize ws o dl => exact absurd rfl (h ws o dl)
    | InvalidAlignment ws ss so => rfl
    | InvalidRead m => rfl
    | InvalidWrite m => rfl
  · intro α ew data offset v ws o dl h
    show add_error_context (ew.try_write_le v (get_mut_slice_at_offset data offset)).1
        offset data.length = _
    rw [h]
    rfl
  · intro α ew data offset v e hne h
    show add_error_context (ew.try_write_le v (get_mut_slice_at_offset data offset)).1
        offset data.length = _
    rw [h]
    cases e with
    | InvalidSize ws o dl => exact absurd rfl (hne ws o dl)
    | InvalidAlignment ws ss so => rfl
    | InvalidRead m => rfl
    | InvalidWrite m => rfl
  · intro α ew data offset v ws o dl h
    show add_error_context (ew.try_write_be v (get_mut_slice_at_offset data offset)).1
        offset data.length = _
    rw [h]
    rfl
  · intro α ew data offset v e hne h
    show add_error_context (ew.try_write_be v (get_mut_slice_at_offset data offset)).1
        offset data.length = _
    rw [h]
    cases e with
    | InvalidSize ws o dl => exact absurd rfl (hne ws o dl)
    | InvalidAlignment ws ss so => rfl
    | InvalidRead m => rfl
    | InvalidWrite m => rfl

/-- Witness for C1, matching the `should_bubble_up_error_offsets_for_slice`
and `should_bubble_up_custom_errors_for_slice` tests of
`src/src/writer.rs`: an empty slice written at offset 2 turns the
sub-error `InvalidSize{8, 1, 0}` into `InvalidSize{8, 3, 0}`, and an
`InvalidRead` passes through unchanged. -/
theorem c1_offset_rewriting_witness :
    (writer_write_le offsetErrEW ([] : List Nat) 2 0).1
        = .error (.InvalidSize 8 3 0)
    ∧ (writer_write_le customErrEW ([] : List Nat) 0 0).1
        = .error (.InvalidRead "Custom error!") := by
  constructor
  · exact c1_offset_rewriting.2.2.1 Nat offsetErrEW [] 2 0 8 1 0 rfl
  · exact c1_offset_rewriting.2.2.2.1 Nat customErrEW [] 0 0
      (.InvalidRead "Custom error!") (by intro ws o dl; simp) rfl

/-- C3 (code evaluation): `Reader::get_slice_of_size` as written in
`src/src/reader.rs`, on an 8-byte buffer: at `(offset 6, size 4)` it
produces a two-field `InvalidSize{wanted_size: 4, available_size: 2}` —
carrying neither the requested offset nor the total length, and using
fields the crate's `Error` type does not define — and at
`(offset 10, size 4)` the subtraction `data.len() - offset` underflows
(no error value is produced at all), where the claim requires
`InvalidSize{wanted_size: 4, offset: 10, data_len: 8}`. -/
theorem c3_code_eval :
    get_slice_of_size [1, 2, 3, 4, 5, 6, 7, 8] 6 4
        = some (.error ⟨4, 2⟩)
    ∧ get_slice_of_size [1, 2, 3, 4, 5, 6, 7, 8] 10 4 = none := ⟨rfl, rfl⟩

/-- C4 (code evaluation): on the bytes
`[0x02, 0x11, 0x22, 0x33, 0x44, 0xaa, 0xbb, 0xcc, 0xdd]` of the
repo's own test `should_read_dynamic_size_le`
(`src/macros/tests/endian_read.rs`), the type's decoder
`ListContainer<u32>::try_read_le` succeeds with two items and reports 9
bytes consumed, but `Reader::read_le` as written in `src/src/reader.rs`
carves `mem::size_of::<T>()` bytes (24 for the `Vec`-backed type on a
64-bit target) via `get_sized_slice` and therefore fails — it does not
delegate to `try_read_le` at all (it calls an infallible `T::read_le`
that the `EndianRead` trait does not declare). -/
theorem c4_code_eval :
    listU32TryReadLe [2, 0x11, 0x22, 0x33, 0x44, 0xaa, 0xbb, 0xcc, 0xdd]
        = .ok ([0x44332211, 0xddccbbaa], 9)
    ∧ read_le_src [2, 0x11, 0x22, 0x33, 0x44, 0xaa, 0xbb, 0xcc, 0xdd] 24 0
        = some (.error ⟨24, 9⟩) := ⟨rfl, rfl⟩

/-- Counterexample for C5 as stated: with the cursor at 6 over an
8-byte buffer, `read_byte_stream(4)` fails, yet the cursor does not
stay at 6 (it has been advanced to 10 by `swap_incremented_index`
before the read was attempted). -/
theorem c5_cursor_counterexample :
    ¬ (((StreamContainer.readByteStream ⟨[1, 2, 3, 4, 5, 6, 7, 8], 6⟩ 4).1
          = some (.error ⟨4, 2⟩)) →
        ((StreamContainer.readByteStream ⟨[1, 2, 3, 4, 5, 6, 7, 8], 6⟩ 4).2).index = 6) := by
  intro h
  exact absurd (h rfl) (by decide)

/-- C5 (amended): the strict endian stream operations
`read_stream_le`/`read_stream_be` and `write_stream_le`/`write_stream_be`
mutate the cursor only on success, and then by exactly the
decoder-reported/written byte count (the dynamic size); but
`read_byte_stream`, `write_stream_bytes` and the `checked_*` stream
variants advance the cursor by the requested or static size *before*
the operation, even when it fails or writes nothing. -/
theorem c5_cursor_discipline :
    (∀ (α : Type) (er : EndianRead α) (s : StreamContainer) (v : α) (n : Nat),
      read_le_with_output er s.data s.index = .ok (v, n) →
      s.readStreamLe er = (.ok v, s.incrementBy n))
    ∧ (∀ (α : Type) (er : EndianRead α) (s : StreamContainer) (e : Error),
      read_le_with_output er s.data s.index = .error e →
      s.readStreamLe er = (.error e, s))
    ∧ (∀ (α : Type) (er : EndianRead α) (s : StreamContainer) (v : α) (n : Nat),
      read_be_with_output er s.data s.index = .ok (v, n) →
      s.readStreamBe er = (.ok v, s.incrementBy n))
    ∧ (∀ (α : Type) (er : EndianRead α) (s : StreamContainer) (e : Error),
      read_be_with_output er s.data s.index = .error e →
      s.readStreamBe er = (.error e, s))
    ∧ (∀ (α : Type) (ew : EndianWrite α) (v : α) (s : StreamContainer) (n : Nat),
      (writer_write_le ew s.data s.index v).1 = .ok n →
      ((s.writeStreamLe ew v).2).index = s.index + n)
    ∧ (∀ (α : Type) (ew : EndianWrite α) (v : α) (s : StreamContainer) (e : Error),
      (writer_write_le ew s.data s.index v).1 = .error e →
      ((s.writeStreamLe ew v).2).index = s.index)
    ∧ (∀ (α : Type) (ew : EndianWrite α) (v : α) (s : StreamContainer) (n : Nat),
      (writer_write_be ew s.data s.index v).1 = .ok n →
      ((s.writeStreamBe ew v).2).index = s.index + n)
    ∧ (∀ (α : Type) (ew : EndianWrite α) (v : α) (s : StreamContainer) (e : Error),
      (writer_write_be ew s.data s.index v).1 = .error e →
      ((s.writeStreamBe ew v).2).index = s.index)
    ∧ (∀ (s : StreamContainer) (size : Nat),
      ((s.readByteStream size).2).index = s.index + size)
    ∧ (∀ (s : StreamContainer) (bytes : List Nat),
      ((s.writeStreamBytes bytes).2).index = s.index + bytes.length)
    ∧ (∀ (α : Type) (static_size : Nat) (ew : EndianWrite α) (v : α)
        (s : StreamContainer),
      ((StreamContainer.checkedWriteStreamLe static_size ew v s).2).index
        = s.index + static_size) := by
  refine ⟨?_, ?_, ?_, ?_, ?_, ?_, ?_, ?_, ?_, ?_, ?_⟩
  · intro α er s v n h
    unfold StreamContainer.readStreamLe
    rw [h]
  · intro α er s e h
    unfold StreamContainer.readStreamLe
    rw [h]
  · intro α er s v n h
    unfold StreamContainer.readStreamBe
    rw [h]
  · intro α er s e h
    unfold StreamContainer.readStreamBe
    rw [h]
  · intro α ew v s n h
    unfold StreamContainer.writeStreamLe
    have hr : writer_write_le ew s.data s.index v
        = (Except.ok n, (writer_write_le ew s.data s.index v).2) := by
      rw [← h]
    rw [hr]
  · intro α ew v s e h
    unfold StreamContainer.writeStreamLe
    have hr : writer_write_le ew s.data s.index v
        = (Except.error e, (writer_write_le ew s.data s.index v).2) := by
      rw [← h]
    rw [hr]
  · intro α ew v s n h
    unfold StreamContainer.writeStreamBe
    have hr : writer_write_be ew s.data s.index v
        = (Except.ok n, (writer_write_be ew s.data s.index v).2) := by
      rw [← h]
    rw [hr]
  · intro α ew v s e h
    unfold StreamContainer.writeStreamBe
    have hr : writer_write_be ew s.data s.index v
        = (Except.error e, (writer_write_be ew s.data s.index v).2) := by
      rw [← h]
    rw [hr]
  · intro s size
    rfl
  · intro s bytes
    rfl
  · intro α static_size ew v s
    unfold StreamContainer.checkedWriteStreamLe
    cases hr : (writer_write_le ew s.data s.index v).1 <;>
      simp [StreamContainer.swapIncrementedIndex, StreamContainer.incrementBy, hr]

/-- Witness for C5 (amended): a `u32` stream read at index 0 of an
8-byte buffer succeeds consuming 4 bytes and moves the cursor to 4,
and a failing `checked_write_stream_le` still advances the cursor by
the static size. -/
theorem c5_cursor_discipline_witness :
    (StreamContainer.readStreamLe u32ER ⟨[0x11, 0x22, 0x33, 0x44, 0xaa, 0xbb, 0xcc, 0xdd], 0⟩)
        = (.ok 0x44332211, ⟨[0x11, 0x22, 0x33, 0x44, 0xaa, 0xbb, 0xcc, 0xdd], 4⟩)
    ∧ ((StreamContainer.checkedWriteStreamLe 4 u32EW 0xaabbccdd
          ⟨[1, 2, 3, 4, 5, 6, 7, 8], 6⟩).2).index = 10 := by
  constructor
  · exact c5_cursor_discipline.1 Nat u32ER
      ⟨[0x11, 0x22, 0x33, 0x44, 0xaa, 0xbb, 0xcc, 0xdd], 0⟩ 0x44332211 4 rfl
  · exact c5_cursor_discipline.2.2.2.2.2.2.2.2.2.2 Nat 4 u32EW 0xaabbccdd
      ⟨[1, 2, 3, 4, 5, 6, 7, 8], 6⟩

/-- A 4-byte value whose encoder always fails leaving the destination
untouched, to exercise the error path of the growable-buffer writer. -/
def failingEW : EndianWrite Nat :=
  ⟨fun _ => 4, fun _ dst => (.error (.InvalidRead "fail"), dst),
    fun _ dst => (.error (.InvalidRead "fail"), dst)⟩

/-- C6: a `write_le`/`write_be` into a growable buffer shorter than
`offset + get_size(v)` first resizes it to exactly
`offset + get_size(v)`, zero-filling the new bytes, and only then runs
the value's encoder — so when the encoder fails (leaving its slice
unchanged) the already-grown buffer is returned; and in particular
writing the `u32` `0xaabbccdd` little-endian at offset 2 into an empty
growable buffer yields `[0, 0, 0xdd, 0xcc, 0xbb, 0xaa]`. -/
theorem c6_growable_resize_before_encode :
    (∀ (α : Type) (ew : EndianWrite α) (v : α) (data : List Nat) (offset : Nat)
        (e : Error),
      data.length < offset + ew.get_size v →
      ew.try_write_le v
          ((data ++ List.replicate (offset + ew.get_size v - data.length) 0).drop offset)
        = (.error e,
            (data ++ List.replicate (offset + ew.get_size v - data.length) 0).drop offset) →
      vec_write_le ew data offset v
        = (add_error_context (.error e) offset (offset + ew.get_size v),
            data ++ List.replicate (offset + ew.get_size v - data.length) 0)
      ∧ (data ++ List.replicate (offset + ew.get_size v - data.length) 0).length
          = offset + ew.get_size v)
    ∧ (∀ (α : Type) (ew : EndianWrite α) (v : α) (data : List Nat) (offset : Nat)
        (e : Error),
      data.length < offset + ew.get_size v →
      ew.try_write_be v
          ((data ++ List.replicate (offset + ew.get_size v - data.length) 0).drop offset)
        = (.error e,
            (data ++ List.replicate (offset + ew.get_size v - data.length) 0).drop offset) →
      vec_write_be ew data offset v
        = (add_error_context (.error e) offset (offset + ew.get_size v),
            data ++ List.replicate (offset + ew.get_size v - data.length) 0))
    ∧ vec_write_le u32EW ([] : List Nat) 2 0xaabbccdd
        = (.ok 4, [0, 0, 0xdd, 0xcc, 0xbb, 0xaa])
    ∧ vec_write_be u32EW ([] : List Nat) 2 0xaabbccdd
        = (.ok 4, [0, 0, 0xaa, 0xbb, 0xcc, 0xdd]) := by
  have hlen : ∀ (data : List Nat) (k : Nat), data.length < k →
      (data ++ List.replicate (k - data.length) 0).length = k := by
    intro data k h
    simp [List.length_append, List.length_replicate]
    omega
  refine ⟨?_, ?_, rfl, rfl⟩
  · intro α ew v data offset e hshort hfail
    refine ⟨?_, hlen data (offset + ew.get_size v) hshort⟩
    simp only [vec_write_le]
    rw [if_pos hshort, hfail]
    dsimp only
    rw [List.take_append_drop, hlen data (offset + ew.get_size v) hshort]
  · intro α ew v data offset e hshort hfail
    simp only [vec_write_be]
    rw [if_pos hshort, hfail]
    dsimp only
    rw [List.take_append_drop, hlen data (offset + ew.get_size v) hshort]

/-- Witness for C6: a failing 4-byte encoder written at offset 2 into
an empty growable buffer still leaves the buffer grown to six zero
bytes. -/
theorem c6_growable_resize_before_encode_witness :
    vec_write_le failingEW ([] : List Nat) 2 0
        = (.error (.InvalidRead "fail"), [0, 0, 0, 0, 0, 0])
    ∧ ([] ++ List.replicate (2 + failingEW.get_size 0 - ([] : List Nat).length) 0).length
        = 2 + failingEW.get_size 0 := by
  have h := c6_growable_resize_before_encode.1 Nat failingEW 0 [] 2
    (.InvalidRead "fail") (by decide) rfl
  exact ⟨h.1, h.2⟩

/-- C10: on a fixed-capacity buffer, a failing `Writer::write_bytes`
and failing primitive scalar `try_write_le`/`try_write_be` calls leave
every byte unchanged — the bounds check happens before any copy, also
through `Writer::write_le`/`write_be` for the integer impls. -/
theorem c10_failed_write_no_mutation :
    (∀ (data : List Nat) (offset : Nat) (bytes : List Nat),
      data.length < offset + bytes.length →
      write_bytes data offset bytes
        = (.error (.InvalidSize bytes.length offset data.length), data))
    ∧ (∀ (data : List Nat) (offset : Nat) (bytes : List Nat) (e : Error),
      (write_bytes data offset bytes).1 = .error e →
      (write_bytes data offset bytes).2 = data)
    ∧ (∀ (w v : Nat) (dst : List Nat) (e : Error),
      (tryWriteUIntLe w v dst).1 = .error e → (tryWriteUIntLe w v dst).2 = dst)
    ∧ (∀ (w v : Nat) (dst : List Nat) (e : Error),
      (tryWriteUIntBe w v dst).1 = .error e → (tryWriteUIntBe w v dst).2 = dst)
    ∧ (∀ (w : Nat) (v : Int) (dst : List Nat) (e : Error),
      (tryWriteIntLe w v dst).1 = .error e → (tryWriteIntLe w v dst).2 = dst)
    ∧ (∀ (w : Nat) (v : Int) (dst : List Nat) (e : Error),
      (tryWriteIntBe w v dst).1 = .error e → (tryWriteIntBe w v dst).2 = dst)
    ∧ (∀ (v : Bool) (dst : List Nat) (e : Error),
      (boolEW.try_write_le v dst).1 = .error e → (boolEW.try_write_le v dst).2 = dst)
    ∧ (∀ (v : Bool) (dst : List Nat) (e : Error),
      (boolEW.try_write_be v dst).1 = .error e → (boolEW.try_write_be v dst).2 = dst)
    ∧ (∀ (w v : Nat) (data : List Nat) (offset : Nat) (e : Error),
      (writer_write_le (uintEW w) data offset v).1 = .error e →
      (writer_write_le (uintEW w) data offset v).2 = data)
    ∧ (∀ (w v : Nat) (data : List Nat) (offset : Nat) (e : Error),
      (writer_write_be (uintEW w) data offset v).1 = .error e →
      (writer_write_be (uintEW w) data offset v).2 = data) := by
  have huintle : ∀ (w v : Nat) (dst : List Nat) (e : Error),
      (tryWriteUIntLe w v dst).1 = .error e → (tryWriteUIntLe w v dst).2 = dst := by
    intro w v dst e h
    by_cases hc : w > dst.length
    · unfold tryWriteUIntLe
      rw [if_pos hc]
    · rw [tryWriteUIntLe_ok (by omega)] at h ⊢
      cases h
  have huintbe : ∀ (w v : Nat) (dst : List Nat) (e : Error),
      (tryWriteUIntBe w v dst).1 = .error e → (tryWriteUIntBe w v dst).2 = dst := by
    intro w v dst e h
    by_cases hc : w > dst.length
    · unfold tryWriteUIntBe
      rw [if_pos hc]
    · rw [tryWriteUIntBe_ok (by omega)] at h ⊢
      cases h
  have hglue : ∀ (data : List Nat) (offset : Nat),
      data.take offset ++ get_mut_slice_at_offset data offset = data := by
    intro data offset
    unfold get_mut_slice_at_offset
    by_cases hc : offset ≥ data.length
    · rw [if_pos hc, List.append_nil, List.take_of_length_le (by omega)]
    · rw [if_neg hc, List.take_append_drop]
  refine ⟨?_, ?_, huintle, huintbe, ?_, ?_, ?_, ?_, ?_, ?_⟩
  · intro data offset bytes h
    unfold write_bytes
    rw [if_pos (by omega)]
  · intro data offset bytes e h
    by_cases hc : data.length < offset + bytes.length
    · unfold write_bytes
      rw [if_pos hc]
    · unfold write_bytes at h
      rw [if_neg hc] at h
      cases h
  · intro w v dst e h
    exact huintle w (intToNatTwos w v) dst e h
  · intro w v dst e h
    exact huintbe w (intToNatTwos w v) dst e h
  · intro v dst e h
    show (if 1 > dst.length
        then ((.error (.InvalidSize 1 0 dst.length) : Except Error Nat), dst)
        else (.ok 1, (if v then 1 else 0) :: dst.drop 1)).2 = dst
    by_cases hc : 1 > dst.length
    · rw [if_pos hc]
    · exfalso
      have h2 : (boolEW.try_write_le v dst).1 = .ok 1 := by
        show (if 1 > dst.length
            then ((.error (.InvalidSize 1 0 dst.length) : Except Error Nat), dst)
            else (.ok 1, (if v then 1 else 0) :: dst.drop 1)).1 = .ok 1
        rw [if_neg hc]
      rw [h2] at h
      cases h
  · intro v dst e h
    show (if 1 > dst.length
        then ((.error (.InvalidSize 1 0 dst.length) : Except Error Nat), dst)
        else (.ok 1, (if v then 1 else 0) :: dst.drop 1)).2 = dst
    by_cases hc : 1 > dst.length
    · rw [if_pos hc]
    · exfalso
      have h2 : (boolEW.try_write_be v dst).1 = .ok 1 := by
        show (if 1 > dst.length
            then ((.error (.InvalidSize 1 0 dst.length) : Except Error Nat), dst)
            else (.ok 1, (if v then 1 else 0) :: dst.drop 1)).1 = .ok 1
        rw [if_neg hc]
      rw [h2] at h
      cases h
  · intro w v data offset e h
    show data.take offset
        ++ ((uintEW w).try_write_le v (get_mut_slice_at_offset data offset)).2 = data
    by_cases hc : w > (get_mut_slice_at_offset data offset).length
    · have h2 : ((uintEW w).try_write_le v (get_mut_slice_at_offset data offset)).2
          = get_mut_slice_at_offset data offset := by
        show (tryWriteUIntLe w v (get_mut_slice_at_offset data offset)).2 = _
        unfold tryWriteUIntLe
        rw [if_pos hc]
      rw [h2, hglue]
    · exfalso
      have h2 : (tryWriteUIntLe w v (get_mut_slice_at_offset data offset)).1 = .ok w := by
        rw [tryWriteUIntLe_ok (by omega)]
      have h3 : (writer_write_le (uintEW w) data offset v).1 = .ok w := by
        show add_error_context
            ((uintEW w).try_write_le v (get_mut_slice_at_offset data offset)).1
            offset data.length = .ok w
        rw [show (uintEW w).try_write_le = tryWriteUIntLe w from rfl, h2]
        rfl
      rw [h3] at h
      cases h
  · intro w v data offset e h
    show data.take offset
        ++ ((uintEW w).try_write_be v (get_mut_slice_at_offset data offset)).2 = data
    by_cases hc : w > (get_mut_slice_at_offset data offset).length
    · have h2 : ((uintEW w).try_write_be v (get_mut_slice_at_offset data offset)).2
          = get_mut_slice_at_offset data offset := by
        show (tryWriteUIntBe w v (get_mut_slice_at_offset data offset)).2 = _
        unfold tryWriteUIntBe
        rw [if_pos hc]
      rw [h2, hglue]
    · exfalso
      have h2 : (tryWriteUIntBe w v (get_mut_slice_at_offset data offset)).1 = .ok w := by
        rw [tryWriteUIntBe_ok (by omega)]
      have h3 : (writer_write_be (uintEW w) data offset v).1 = .ok w := by
        show add_error_context
            ((uintEW w).try_write_be v (get_mut_slice_at_offset data offset)).1
            offset data.length = .ok w
        rw [show (uintEW w).try_write_be = tryWriteUIntBe w from rfl, h2]
        rfl
      rw [h3] at h
      cases h

/-- Witness for C10: `write_bytes` of four bytes at offset 6 of an
8-byte buffer fails with `InvalidSize{4, 6, 8}` and leaves the buffer
unchanged, matching the
`should_return_error_if_size_is_too_large_for_offset` test of
`src/src/writer.rs`. -/
theorem c10_failed_write_no_mutation_witness :
    write_bytes [1, 2, 3, 4, 5, 6, 7, 8] 6 [0xaa, 0xbb, 0xcc, 0xdd]
        = (.error (.InvalidSize 4 6 8), [1, 2, 3, 4, 5, 6, 7, 8]) := by
  exact c10_failed_write_no_mutation.1 [1, 2, 3, 4, 5, 6, 7, 8] 6
    [0xaa, 0xbb, 0xcc, 0xdd] (by decide)

theorem tryReadIntLe_ok {w : Nat} {bytes : List Nat} (h : w ≤ bytes.length) :
    tryReadIntLe w bytes
      = .ok (natToIntTwos w (natFromLeBytes (bytes.take w)), w) := by
  unfold tryReadIntLe
  rw [if_neg (by omega)]

theorem tryReadIntBe_ok {w : Nat} {bytes : List Nat} (h : w ≤ bytes.length) :
    tryReadIntBe w bytes
      = .ok (natToIntTwos w (natFromBeBytes (bytes.take w)), w) := by
  unfold tryReadIntBe
  rw [if_neg (by omega)]

/-- Spec §4.2, worded for an unsigned integer codec of width `w`: both
endiannesses of decode and encode exist and use the natural
(least-significant-byte-first resp. most-significant-byte-first) byte
layout, and the reported size is the type's width. -/
def UIntNaturalCodec (w : Nat) (er : EndianRead Nat) (ew : EndianWrite Nat) : Prop :=
  (∀ bytes, w ≤ bytes.length →
    er.try_read_le bytes = .ok (natFromLeBytes (bytes.take w), w))
  ∧ (∀ bytes, w ≤ bytes.length →
    er.try_read_be bytes = .ok (natFromBeBytes (bytes.take w), w))
  ∧ (∀ v dst, w ≤ dst.length →
    ew.try_write_le v dst = (.ok w, natToLeBytes w v ++ dst.drop w))
  ∧ (∀ v dst, w ≤ dst.length →
    ew.try_write_be v dst = (.ok w, natToBeBytes w v ++ dst.drop w))
  ∧ (∀ v, ew.get_size v = w)

/-- Spec §4.2, worded for a signed integer codec of width `w`: the
same, through the two's-complement bit pattern. -/
def IntNaturalCodec (w : Nat) (er : EndianRead Int) (ew : EndianWrite Int) : Prop :=
  (∀ bytes, w ≤ bytes.length →
    er.try_read_le bytes = .ok (natToIntTwos w (natFromLeBytes (bytes.take w)), w))
  ∧ (∀ bytes, w ≤ bytes.length →
    er.try_read_be bytes = .ok (natToIntTwos w (natFromBeBytes (bytes.take w)), w))
  ∧ (∀ v dst, w ≤ dst.length →
    ew.try_write_le v dst = (.ok w, natToLeBytes w (intToNatTwos w v) ++ dst.drop w))
  ∧ (∀ v dst, w ≤ dst.length →
    ew.try_write_be v dst = (.ok w, natToBeBytes w (intToNatTwos w v) ++ dst.drop w))
  ∧ (∀ v, ew.get_size v = w)

theorem uintNaturalCodec_holds (w : Nat) : UIntNaturalCodec w (uintER w) (uintEW w) :=
  ⟨fun _ h => tryReadUIntLe_ok h, fun _ h => tryReadUIntBe_ok h,
    fun _ _ h => tryWriteUIntLe_ok h, fun _ _ h => tryWriteUIntBe_ok h, fun _ => rfl⟩

theorem intNaturalCodec_holds (w : Nat) : IntNaturalCodec w (intER w) (intEW w) :=
  ⟨fun _ h => tryReadIntLe_ok h, fun _ h => tryReadIntBe_ok h,
    fun _ _ h => tryWriteUIntLe_ok h, fun _ _ h => tryWriteUIntBe_ok h, fun _ => rfl⟩

/-- C2: every fixed-width scalar type of spec §4.2 — unsigned and
signed 8/16/32/64-bit integers, the IEEE floats through their bit
patterns, boolean (nonzero byte decodes to `true`, encoded `0x01`/`0x00`
identically in both endiannesses), fixed-size byte arrays (verbatim,
endianness-invariant) and the zero-size unit value — has both a
little-endian and a big-endian decode (`try_read_le`/`try_read_be`)
and encode (`try_write_le`/`try_write_be`) in the natural
two's-complement / IEEE bit layout. -/
theorem c2_primitive_codec_all_types :
    UIntNaturalCodec 1 u8ER u8EW ∧ UIntNaturalCodec 2 u16ER u16EW
    ∧ UIntNaturalCodec 4 u32ER u32EW ∧ UIntNaturalCodec 8 u64ER u64EW
    ∧ IntNaturalCodec 1 i8ER i8EW ∧ IntNaturalCodec 2 i16ER i16EW
    ∧ IntNaturalCodec 4 i32ER i32EW ∧ IntNaturalCodec 8 i64ER i64EW
    ∧ UIntNaturalCodec 4 f32ER f32EW ∧ UIntNaturalCodec 8 f64ER f64EW
    ∧ (∀ (b : Nat) (rest : List Nat),
        boolER.try_read_le (b :: rest) = .ok (decide (b ≠ 0), 1))
    ∧ (∀ (b : Nat) (rest : List Nat),
        boolER.try_read_be (b :: rest) = .ok (decide (b ≠ 0), 1))
    ∧ (∀ (v : Bool) (dst : List Nat), 1 ≤ dst.length →
        boolEW.try_write_le v dst = (.ok 1, (if v then 1 else 0) :: dst.drop 1))
    ∧ (∀ (v : Bool) (dst : List Nat), 1 ≤ dst.length →
        boolEW.try_write_be v dst = (.ok 1, (if v then 1 else 0) :: dst.drop 1))
    ∧ (∀ (w : Nat) (bytes : List Nat), w ≤ bytes.length →
        (byteArrayER w).try_read_le bytes = .ok (bytes.take w, w))
    ∧ (∀ (w : Nat) (bytes : List Nat), w ≤ bytes.length →
        (byteArrayER w).try_read_be bytes = .ok (bytes.take w, w))
    ∧ (∀ (w : Nat) (v : List Nat) (dst : List Nat), w ≤ dst.length →
        (byteArrayEW w).try_write_le v dst = (.ok w, v.take w ++ dst.drop w))
    ∧ (∀ (w : Nat) (v : List Nat) (dst : List Nat), w ≤ dst.length →
        (byteArrayEW w).try_write_be v dst = (.ok w, v.take w ++ dst.drop w))
    ∧ (∀ bytes, unitER.try_read_le bytes = .ok ((), 0))
    ∧ (∀ bytes, unitER.try_read_be bytes = .ok ((), 0))
    ∧ (∀ dst, unitEW.try_write_le () dst = (.ok 0, dst))
    ∧ (∀ dst, unitEW.try_write_be () dst = (.ok 0, dst))
    ∧ unitEW.get_size () = 0 := by
  refine ⟨uintNaturalCodec_holds 1, uintNaturalCodec_holds 2, uintNaturalCodec_holds 4,
    uintNaturalCodec_holds 8, intNaturalCodec_holds 1, intNaturalCodec_holds 2,
    intNaturalCodec_holds 4, intNaturalCodec_holds 8, uintNaturalCodec_holds 4,
    uintNaturalCodec_holds 8, ?_, ?_, ?_, ?_, ?_, ?_, ?_, ?_,
    fun _ => rfl, fun _ => rfl, fun _ => rfl, fun _ => rfl, rfl⟩
  · intro b rest
    show (tryReadUIntLe 1 (b :: rest)).map (fun p => (decide (p.1 ≠ 0), p.2))
        = .ok (decide (b ≠ 0), 1)
    rw [tryReadUIntLe_ok (by simp)]
    simp [natFromLeBytes, Except.map]
  · intro b rest
    show (tryReadUIntLe 1 (b :: rest)).map (fun p => (decide (p.1 ≠ 0), p.2))
        = .ok (decide (b ≠ 0), 1)
    rw [tryReadUIntLe_ok (by simp)]
    simp [natFromLeBytes, Except.map]
  · intro v dst h
    show (if 1 > dst.length
        then ((.error (.InvalidSize 1 0 dst.length) : Except Error Nat), dst)
        else (.ok 1, (if v then 1 else 0) :: dst.drop 1))
        = (.ok 1, (if v then 1 else 0) :: dst.drop 1)
    rw [if_neg (by omega)]
  · intro v dst h
    show (if 1 > dst.length
        then ((.error (.InvalidSize 1 0 dst.length) : Except Error Nat), dst)
        else (.ok 1, (if v then 1 else 0) :: dst.drop 1))
        = (.ok 1, (if v then 1 else 0) :: dst.drop 1)
    rw [if_neg (by omega)]
  · intro w bytes h
    show (if w > bytes.length
        then (.error (.InvalidSize w 0 bytes.length) : Except Error (List Nat × Nat))
        else .ok (bytes.take w, w)) = .ok (bytes.take w, w)
    rw [if_neg (by omega)]
  · intro w bytes h
    show (if w > bytes.length
        then (.error (.InvalidSize w 0 bytes.length) : Except Error (List Nat × Nat))
        else .ok (bytes.take w, w)) = .ok (bytes.take w, w)
    rw [if_neg (by omega)]
  · intro w v dst h
    show (if w > dst.length
        then ((.error (.InvalidSize w 0 dst.length) : Except Error Nat), dst)
        else (.ok w, v.take w ++ dst.drop w)) = (.ok w, v.take w ++ dst.drop w)
    rw [if_neg (by omega)]
  · intro w v dst h
    show (if w > dst.length
        then ((.error (.InvalidSize w 0 dst.length) : Except Error Nat), dst)
        else (.ok w, v.take w ++ dst.drop w)) = (.ok w, v.take w ++ dst.drop w)
    rw [if_neg (by omega)]

/-- Witness for C2: the `u32` decode of the little-endian bytes of
`0xddccbbaa` and the boolean encode of `true`, at concrete inputs. -/
theorem c2_primitive_codec_all_types_witness :
    u32ER.try_read_le [0xaa, 0xbb, 0xcc, 0xdd] = .ok (0xddccbbaa, 4)
    ∧ boolEW.try_write_le true [7] = (.ok 1, [1]) := by
  constructor
  · exact c2_primitive_codec_all_types.2.2.1.1 [0xaa, 0xbb, 0xcc, 0xdd] (by decide)
  · exact c2_primitive_codec_all_types.2.2.2.2.2.2.2.2.2.2.2.2.2.1 true [7] (by decide)

theorem writeStreamLe_uint_err (w v : Nat) (s : StreamContainer)
    (hidx : s.index < s.data.length) (h : s.data.length < s.index + w) :
    s.writeStreamLe (uintEW w) v
      = (.error (.InvalidSize w s.index s.data.length), ⟨s.data, s.index⟩) := by
  have hidx2 : ¬ s.index ≥ s.data.length := by omega
  have hlen : (s.data.drop s.index).length < w := by
    rw [List.length_drop]; omega
  unfold StreamContainer.writeStreamLe writer_write_le get_mut_slice_at_offset
  rw [if_neg hidx2]
  have hstep : (uintEW w).try_write_le v (s.data.drop s.index)
      = (.error (.InvalidSize w 0 (s.data.drop s.index).length), s.data.drop s.index) :=
    tryWriteUIntLe_err hlen
  rw [hstep]
  simp only [add_error_context, List.take_append_drop, List.length_drop]
  rfl

theorem writeStreamBe_uint_err (w v : Nat) (s : StreamContainer)
    (hidx : s.index < s.data.length) (h : s.data.length < s.index + w) :
    s.writeStreamBe (uintEW w) v
      = (.error (.InvalidSize w s.index s.data.length), ⟨s.data, s.index⟩) := by
  have hidx2 : ¬ s.index ≥ s.data.length := by omega
  have hlen : (s.data.drop s.index).length < w := by
    rw [List.length_drop]; omega
  unfold StreamContainer.writeStreamBe writer_write_be get_mut_slice_at_offset
  rw [if_neg hidx2]
  have hstep : (uintEW w).try_write_be v (s.data.drop s.index)
      = (.error (.InvalidSize w 0 (s.data.drop s.index).length), s.data.drop s.index) :=
    tryWriteUIntBe_err hlen
  rw [hstep]
  simp only [add_error_context, List.take_append_drop, List.length_drop]
  rfl

theorem testTryWriteLe_shape (a b : Nat) :
    testTryWriteLe a b (List.replicate 5 0)
      = (.ok 5, natToLeBytes 1 a ++ natToLeBytes 4 b) := by
  have h1 : (⟨[0, 0, 0, 0, 0], 0⟩ : StreamContainer).writeStreamLe u8EW a
      = (.ok 1, ⟨a % 256 :: [0, 0, 0, 0], 1⟩) := by
    show (⟨[0, 0, 0, 0, 0], 0⟩ : StreamContainer).writeStreamLe (uintEW 1) a = _
    rw [writeStreamLe_uint_ok 1 a ⟨[0, 0, 0, 0, 0], 0⟩ (by norm_num) (by simp)]
    rfl
  have h2 : (⟨a % 256 :: [0, 0, 0, 0], 1⟩ : StreamContainer).writeStreamLe u32EW b
      = (.ok 4, ⟨a % 256 :: natToLeBytes 4 b, 5⟩) := by
    show (⟨a % 256 :: [0, 0, 0, 0], 1⟩ : StreamContainer).writeStreamLe (uintEW 4) b = _
    rw [writeStreamLe_uint_ok 4 b ⟨a % 256 :: [0, 0, 0, 0], 1⟩ (by norm_num) (by simp)]
    rfl
  simp [testTryWriteLe, h1, h2, natToLeBytes]

theorem testTryWriteBe_shape (a b : Nat) :
    testTryWriteBe a b (List.replicate 5 0)
      = (.ok 5, natToBeBytes 1 a ++ natToBeBytes 4 b) := by
  have h1 : (⟨[0, 0, 0, 0, 0], 0⟩ : StreamContainer).writeStreamBe u8EW a
      = (.ok 1, ⟨a % 256 :: [0, 0, 0, 0], 1⟩) := by
    show (⟨[0, 0, 0, 0, 0], 0⟩ : StreamContainer).writeStreamBe (uintEW 1) a = _
    rw [writeStreamBe_uint_ok 1 a ⟨[0, 0, 0, 0, 0], 0⟩ (by norm_num) (by simp)]
    rfl
  have h2 : (⟨a % 256 :: [0, 0, 0, 0], 1⟩ : StreamContainer).writeStreamBe u32EW b
      = (.ok 4, ⟨a % 256 :: natToBeBytes 4 b, 5⟩) := by
    show (⟨a % 256 :: [0, 0, 0, 0], 1⟩ : StreamContainer).writeStreamBe (uintEW 4) b = _
    rw [writeStreamBe_uint_ok 4 b ⟨a % 256 :: [0, 0, 0, 0], 1⟩ (by norm_num) (by simp)]
    rfl
  simp [testTryWriteBe, h1, h2, natToBeBytes, natToLeBytes]

theorem testTryReadLe_shape (a b : Nat) (ha : a < 2 ^ 8) (hb : b < 2 ^ 32) :
    testTryReadLe (natToLeBytes 1 a ++ natToLeBytes 4 b) = .ok ((a, b), 5) := by
  have hmoda : a % 2 ^ 8 = a := Nat.mod_eq_of_lt ha
  have hmodb : b % 2 ^ 32 = b := Nat.mod_eq_of_lt hb
  have h1 : (⟨natToLeBytes 1 a ++ natToLeBytes 4 b, 0⟩ : StreamContainer).readStreamLe u8ER
      = (.ok a, ⟨natToLeBytes 1 a ++ natToLeBytes 4 b, 1⟩) := by
    show (⟨natToLeBytes 1 a ++ natToLeBytes 4 b, 0⟩ : StreamContainer).readStreamLe
        (uintER 1) = _
    rw [readStreamLe_uint_ok 1 a (natToLeBytes 4 b) _ (by simp)]
    rw [hmoda]
  have h2 : (⟨natToLeBytes 1 a ++ natToLeBytes 4 b, 1⟩ : StreamContainer).readStreamLe u32ER
      = (.ok b, ⟨natToLeBytes 1 a ++ natToLeBytes 4 b, 5⟩) := by
    show (⟨natToLeBytes 1 a ++ natToLeBytes 4 b, 1⟩ : StreamContainer).readStreamLe
        (uintER 4) = _
    rw [readStreamLe_uint_ok 4 b [] _ (by simp [natToLeBytes])]
    rw [hmodb]
  simp [testTryReadLe, h1, h2]

theorem testTryReadBe_shape (a b : Nat) (ha : a < 2 ^ 8) (hb : b < 2 ^ 32) :
    testTryReadBe (natToBeBytes 1 a ++ natToBeBytes 4 b) = .ok ((a, b), 5) := by
  have hmoda : a % 2 ^ 8 = a := Nat.mod_eq_of_lt ha
  have hmodb : b % 2 ^ 32 = b := Nat.mod_eq_of_lt hb
  have h1 : (⟨natToBeBytes 1 a ++ natToBeBytes 4 b, 0⟩ : StreamContainer).readStreamBe u8ER
      = (.ok a, ⟨natToBeBytes 1 a ++ natToBeBytes 4 b, 1⟩) := by
    show (⟨natToBeBytes 1 a ++ natToBeBytes 4 b, 0⟩ : StreamContainer).readStreamBe
        (uintER 1) = _
    rw [readStreamBe_uint_ok 1 a (natToBeBytes 4 b) _ (by simp)]
    rw [hmoda]
  have h2 : (⟨natToBeBytes 1 a ++ natToBeBytes 4 b, 1⟩ : StreamContainer).readStreamBe u32ER
      = (.ok b, ⟨natToBeBytes 1 a ++ natToBeBytes 4 b, 5⟩) := by
    show (⟨natToBeBytes 1 a ++ natToBeBytes 4 b, 1⟩ : StreamContainer).readStreamBe
        (uintER 4) = _
    rw [readStreamBe_uint_ok 4 b [] _ (by simp [natToBeBytes, natToLeBytes])]
    rw [hmodb]
  simp [testTryReadBe, h1, h2]

/-- C7: for every fixed-width scalar value `v`, decoding the bytes
produced by encoding `v` into a fresh buffer of the right size yields
`v` again, in both endiannesses — for all unsigned and signed integer
widths and for booleans — and the same round trip holds for the
derived codec of a struct composed of fixed-width fields
(`Test { first: u8, second: u32 }`). -/
theorem c7_roundtrip :
    (∀ v, v < 2 ^ 8 →
      u8ER.try_read_le (u8EW.try_write_le v (List.replicate 1 0)).2 = .ok (v, 1))
    ∧ (∀ v, v < 2 ^ 8 →
      u8ER.try_read_be (u8EW.try_write_be v (List.replicate 1 0)).2 = .ok (v, 1))
    ∧ (∀ v, v < 2 ^ 16 →
      u16ER.try_read_le (u16EW.try_write_le v (List.replicate 2 0)).2 = .ok (v, 2))
    ∧ (∀ v, v < 2 ^ 16 →
      u16ER.try_read_be (u16EW.try_write_be v (List.replicate 2 0)).2 = .ok (v, 2))
    ∧ (∀ v, v < 2 ^ 32 →
      u32ER.try_read_le (u32EW.try_write_le v (List.replicate 4 0)).2 = .ok (v, 4))
    ∧ (∀ v, v < 2 ^ 32 →
      u32ER.try_read_be (u32EW.try_write_be v (List.replicate 4 0)).2 = .ok (v, 4))
    ∧ (∀ v, v < 2 ^ 64 →
      u64ER.try_read_le (u64EW.try_write_le v (List.replicate 8 0)).2 = .ok (v, 8))
    ∧ (∀ v, v < 2 ^ 64 →
      u64ER.try_read_be (u64EW.try_write_be v (List.replicate 8 0)).2 = .ok (v, 8))
    ∧ (∀ v : Int, -(2 ^ 7) ≤ v → v < 2 ^ 7 →
      i8ER.try_read_le (i8EW.try_write_le v (List.replicate 1 0)).2 = .ok (v, 1))
    ∧ (∀ v : Int, -(2 ^ 7) ≤ v → v < 2 ^ 7 →
      i8ER.try_read_be (i8EW.try_write_be v (List.replicate 1 0)).2 = .ok (v, 1))
    ∧ (∀ v : Int, -(2 ^ 15) ≤ v → v < 2 ^ 15 →
      i16ER.try_read_le (i16EW.try_write_le v (List.replicate 2 0)).2 = .ok (v, 2))
    ∧ (∀ v : Int, -(2 ^ 15) ≤ v → v < 2 ^ 15 →
      i16ER.try_read_be (i16EW.try_write_be v (List.replicate 2 0)).2 = .ok (v, 2))
    ∧ (∀ v : Int, -(2 ^ 31) ≤ v → v < 2 ^ 31 →
      i32ER.try_read_le (i32EW.try_write_le v (List.replicate 4 0)).2 = .ok (v, 4))
    ∧ (∀ v : Int, -(2 ^ 31) ≤ v → v < 2 ^ 31 →
      i32ER.try_read_be (i32EW.try_write_be v (List.replicate 4 0)).2 = .ok (v, 4))
    ∧ (∀ v : Int, -(2 ^ 63) ≤ v → v < 2 ^ 63 →
      i64ER.try_read_le (i64EW.try_write_le v (List.replicate 8 0)).2 = .ok (v, 8))
    ∧ (∀ v : Int, -(2 ^ 63) ≤ v → v < 2 ^ 63 →
      i64ER.try_read_be (i64EW.try_write_be v (List.replicate 8 0)).2 = .ok (v, 8))
    ∧ (∀ v : Bool,
      boolER.try_read_le (boolEW.try_write_le v (List.replicate 1 0)).2 = .ok (v, 1))
    ∧ (∀ v : Bool,
      boolER.try_read_be (boolEW.try_write_be v (List.replicate 1 0)).2 = .ok (v, 1))
    ∧ (∀ a b, a < 2 ^ 8 → b < 2 ^ 32 →
      testTryReadLe (testTryWriteLe a b (List.replicate 5 0)).2 = .ok ((a, b), 5))
    ∧ (∀ a b, a < 2 ^ 8 → b < 2 ^ 32 →
      testTryReadBe (testTryWriteBe a b (List.replicate 5 0)).2 = .ok ((a, b), 5)) := by
  refine ⟨fun v h => uint_roundtrip_le 1 v h, fun v h => uint_roundtrip_be 1 v h,
    fun v h => uint_roundtrip_le 2 v h, fun v h => uint_roundtrip_be 2 v h,
    fun v h => uint_roundtrip_le 4 v h, fun v h => uint_roundtrip_be 4 v h,
    fun v h => uint_roundtrip_le 8 v h, fun v h => uint_roundtrip_be 8 v h,
    fun v hlo hhi => int_roundtrip_le 1 (by norm_num) v hlo hhi,
    fun v hlo hhi => int_roundtrip_be 1 (by norm_num) v hlo hhi,
    fun v hlo hhi => int_roundtrip_le 2 (by norm_num) v hlo hhi,
    fun v hlo hhi => int_roundtrip_be 2 (by norm_num) v hlo hhi,
    fun v hlo hhi => int_roundtrip_le 4 (by norm_num) v hlo hhi,
    fun v hlo hhi => int_roundtrip_be 4 (by norm_num) v hlo hhi,
    fun v hlo hhi => int_roundtrip_le 8 (by norm_num) v hlo hhi,
    fun v hlo hhi => int_roundtrip_be 8 (by norm_num) v hlo hhi,
    ?_, ?_, ?_, ?_⟩
  · intro v
    cases v <;> rfl
  · intro v
    cases v <;> rfl
  · intro a b ha hb
    rw [testTryWriteLe_shape]
    exact testTryReadLe_shape a b ha hb
  · intro a b ha hb
    rw [testTryWriteBe_shape]
    exact testTryReadBe_shape a b ha hb

/-- Witness for C7: the `u32` `0xaabbccdd`, the `i32` `-2`, and the
struct `{ first: 0xaa, second: 0xeeddccbb }` round-trip at concrete
inputs. -/
theorem c7_roundtrip_witness :
    u32ER.try_read_le (u32EW.try_write_le 0xaabbccdd (List.replicate 4 0)).2
        = .ok (0xaabbccdd, 4)
    ∧ i32ER.try_read_le (i32EW.try_write_le (-2) (List.replicate 4 0)).2 = .ok (-2, 4)
    ∧ testTryReadLe (testTryWriteLe 0xaa 0xeeddccbb (List.replicate 5 0)).2
        = .ok ((0xaa, 0xeeddccbb), 5) := by
  refine ⟨?_, ?_, ?_⟩
  · exact c7_roundtrip.2.2.2.2.1 0xaabbccdd (by norm_num)
  · exact c7_roundtrip.2.2.2.2.2.2.2.2.2.2.2.2.1 (-2) (by norm_num) (by norm_num)
  · exact c7_roundtrip.2.2.2.2.2.2.2.2.2.2.2.2.2.2.2.2.2.2.1 0xaa 0xeeddccbb
      (by norm_num) (by norm_num)

theorem exists_cons8 : ∀ (dst : List Nat), 8 ≤ dst.length →
    ∃ d0 d1 d2 d3 d4 d5 d6 d7 rest,
      dst = d0 :: d1 :: d2 :: d3 :: d4 :: d5 :: d6 :: d7 :: rest
  | d0 :: d1 :: d2 :: d3 :: d4 :: d5 :: d6 :: d7 :: rest, _ =>
      ⟨d0, d1, d2, d3, d4, d5, d6, d7, rest, rfl⟩
  | [], h => absurd h (by decide)
  | [_], h => absurd h (by simp)
  | [_, _], h => absurd h (by simp)
  | [_, _, _], h => absurd h (by simp)
  | [_, _, _, _], h => absurd h (by simp)
  | [_, _, _, _, _], h => absurd h (by simp)
  | [_, _, _, _, _, _], h => absurd h (by simp)
  | [_, _, _, _, _, _, _], h => absurd h (by simp)

theorem padTestWriteLe_cons8 (a b d0 d1 d2 d3 d4 d5 d6 d7 : Nat) (rest : List Nat) :
    padTestTryWriteLe a b (d0 :: d1 :: d2 :: d3 :: d4 :: d5 :: d6 :: d7 :: rest)
      = (.ok 8, d0 :: a % 256 :: d2 :: d3 :: (natToLeBytes 4 b ++ rest)) := by
  have h1 : (⟨d0 :: d1 :: d2 :: d3 :: d4 :: d5 :: d6 :: d7 :: rest, 1⟩ :
        StreamContainer).writeStreamLe u8EW a
      = (.ok 1, ⟨d0 :: a % 256 :: d2 :: d3 :: d4 :: d5 :: d6 :: d7 :: rest, 2⟩) := by
    show (⟨d0 :: d1 :: d2 :: d3 :: d4 :: d5 :: d6 :: d7 :: rest, 1⟩ :
        StreamContainer).writeStreamLe (uintEW 1) a = _
    rw [writeStreamLe_uint_ok 1 a ⟨d0 :: d1 :: d2 :: d3 :: d4 :: d5 :: d6 :: d7 :: rest, 1⟩
      (by norm_num) (by simp)]
    rfl
  have h2 : (⟨d0 :: a % 256 :: d2 :: d3 :: d4 :: d5 :: d6 :: d7 :: rest, 4⟩ :
        StreamContainer).writeStreamLe u32EW b
      = (.ok 4, ⟨d0 :: a % 256 :: d2 :: d3 :: (natToLeBytes 4 b ++ rest), 8⟩) := by
    show (⟨d0 :: a % 256 :: d2 :: d3 :: d4 :: d5 :: d6 :: d7 :: rest, 4⟩ :
        StreamContainer).writeStreamLe (uintEW 4) b = _
    rw [writeStreamLe_uint_ok 4 b ⟨d0 :: a % 256 :: d2 :: d3 :: d4 :: d5 :: d6 :: d7 :: rest, 4⟩
      (by norm_num) (by simp)]
    rfl
  simp [padTestTryWriteLe, StreamContainer.incrementBy, h1, h2]

theorem padTestWriteBe_cons8 (a b d0 d1 d2 d3 d4 d5 d6 d7 : Nat) (rest : List Nat) :
    padTestTryWriteBe a b (d0 :: d1 :: d2 :: d3 :: d4 :: d5 :: d6 :: d7 :: rest)
      = (.ok 8, d0 :: a % 256 :: d2 :: d3 :: (natToBeBytes 4 b ++ rest)) := by
  have h1 : (⟨d0 :: d1 :: d2 :: d3 :: d4 :: d5 :: d6 :: d7 :: rest, 1⟩ :
        StreamContainer).writeStreamBe u8EW a
      = (.ok 1, ⟨d0 :: a % 256 :: d2 :: d3 :: d4 :: d5 :: d6 :: d7 :: rest, 2⟩) := by
    show (⟨d0 :: d1 :: d2 :: d3 :: d4 :: d5 :: d6 :: d7 :: rest, 1⟩ :
        StreamContainer).writeStreamBe (uintEW 1) a = _
    rw [writeStreamBe_uint_ok 1 a ⟨d0 :: d1 :: d2 :: d3 :: d4 :: d5 :: d6 :: d7 :: rest, 1⟩
      (by norm_num) (by simp)]
    simp [natToBeBytes, natToLeBytes]
  have h2 : (⟨d0 :: a % 256 :: d2 :: d3 :: d4 :: d5 :: d6 :: d7 :: rest, 4⟩ :
        StreamContainer).writeStreamBe u32EW b
      = (.ok 4, ⟨d0 :: a % 256 :: d2 :: d3 :: (natToBeBytes 4 b ++ rest), 8⟩) := by
    show (⟨d0 :: a % 256 :: d2 :: d3 :: d4 :: d5 :: d6 :: d7 :: rest, 4⟩ :
        StreamContainer).writeStreamBe (uintEW 4) b = _
    rw [writeStreamBe_uint_ok 4 b ⟨d0 :: a % 256 :: d2 :: d3 :: d4 :: d5 :: d6 :: d7 :: rest, 4⟩
      (by norm_num) (by simp)]
    rfl
  simp [padTestTryWriteBe, StreamContainer.incrementBy, h1, h2]

/-- C9: the generated struct encoder (instantiated for the padded
struct `{ pad_before(1) first: u8, pad_before(2) second: u32 }` of
spec §8) processes fields in declaration order and skips each field's
`pad_before` bytes without writing them: after a successful
`try_write_le`/`try_write_be` into a pre-existing buffer, the bytes at
the padding positions (0, 2 and 3) and past the struct still hold
exactly their previous values, and each field's encoding begins
immediately after its skipped region (the `u8` at byte 1, the `u32` at
bytes 4–7); the derived `get_size` is the sum of the pads and field
sizes. -/
theorem c9_padding_skipped :
    ∀ (dst : List Nat) (a b : Nat), 8 ≤ dst.length → a < 2 ^ 8 →
      padTestTryWriteLe a b dst
        = (.ok 8,
            dst.take 1 ++ a :: ((dst.drop 2).take 2 ++ (natToLeBytes 4 b ++ dst.drop 8)))
      ∧ padTestTryWriteBe a b dst
        = (.ok 8,
            dst.take 1 ++ a :: ((dst.drop 2).take 2 ++ (natToBeBytes 4 b ++ dst.drop 8)))
      ∧ padTestGetSize = (1 + 1) + (2 + 4) := by
  intro dst a b hlen ha
  have ha256 : a % 256 = a := Nat.mod_eq_of_lt (by simpa using ha)
  obtain ⟨d0, d1, d2, d3, d4, d5, d6, d7, rest, rfl⟩ := exists_cons8 dst hlen
  rw [padTestWriteLe_cons8, padTestWriteBe_cons8, ha256]
  refine ⟨?_, ?_, rfl⟩ <;> simp

/-- Witness for C9: writing `{ first: 0x55, second: 0xddccbbaa }` into
an 8-byte buffer of 9s: the padding bytes at positions 0, 2, 3 still
hold 9 afterwards. -/
theorem c9_padding_skipped_witness :
    padTestTryWriteLe 0x55 0xddccbbaa [9, 9, 9, 9, 9, 9, 9, 9]
      = (.ok 8, [9, 0x55, 9, 9, 0xaa, 0xbb, 0xcc, 0xdd]) := by
  have h := (c9_padding_skipped [9, 9, 9, 9, 9, 9, 9, 9] 0x55 0xddccbbaa
    (by decide) (by decide)).1
  exact h

/-- C8: for the provided codecs, `try_write_le`/`try_write_be` into a
destination of exactly `get_size(v)` bytes succeeds and returns exactly
`get_size(v)` bytes written, and into a destination one byte short
(when `get_size(v) ≥ 1`) fails with `InvalidSize` — for every integer
width, booleans, byte arrays, the unit value (whose empty write always
succeeds), and the derived padded-struct codec, whose one-byte-short
failure carries the absolute offset of the field that did not fit. -/
theorem c8_size_truthfulness :
    (∀ (w v : Nat) (dst : List Nat), dst.length = w →
      (tryWriteUIntLe w v dst).1 = .ok w)
    ∧ (∀ (w v : Nat) (dst : List Nat), 1 ≤ w → dst.length = w - 1 →
      (tryWriteUIntLe w v dst).1 = .error (.InvalidSize w 0 (w - 1)))
    ∧ (∀ (w v : Nat) (dst : List Nat), dst.length = w →
      (tryWriteUIntBe w v dst).1 = .ok w)
    ∧ (∀ (w v : Nat) (dst : List Nat), 1 ≤ w → dst.length = w - 1 →
      (tryWriteUIntBe w v dst).1 = .error (.InvalidSize w 0 (w - 1)))
    ∧ (∀ (w : Nat) (v : Int) (dst : List Nat), dst.length = w →
      (tryWriteIntLe w v dst).1 = .ok w)
    ∧ (∀ (w : Nat) (v : Int) (dst : List Nat), 1 ≤ w → dst.length = w - 1 →
      (tryWriteIntLe w v dst).1 = .error (.InvalidSize w 0 (w - 1)))
    ∧ (∀ (w : Nat) (v : Int) (dst : List Nat), dst.length = w →
      (tryWriteIntBe w v dst).1 = .ok w)
    ∧ (∀ (w : Nat) (v : Int) (dst : List Nat), 1 ≤ w → dst.length = w - 1 →
      (tryWriteIntBe w v dst).1 = .error (.InvalidSize w 0 (w - 1)))
    ∧ (∀ (v : Bool) (dst : List Nat), dst.length = 1 →
      (boolEW.try_write_le v dst).1 = .ok 1)
    ∧ (∀ v : Bool, (boolEW.try_write_le v []).1 = .error (.InvalidSize 1 0 0))
    ∧ (∀ dst : List Nat, (unitEW.try_write_le () dst).1 = .ok 0)
    ∧ unitEW.get_size () = 0
    ∧ (∀ (w : Nat) (v dst : List Nat), dst.length = w →
      ((byteArrayEW w).try_write_le v dst).1 = .ok w)
    ∧ (∀ (w : Nat) (v dst : List Nat), 1 ≤ w → dst.length = w - 1 →
      ((byteArrayEW w).try_write_le v dst).1 = .error (.InvalidSize w 0 (w - 1)))
    ∧ (∀ (a b : Nat) (dst : List Nat), dst.length = padTestGetSize →
      (padTestTryWriteLe a b dst).1 = .ok padTestGetSize)
    ∧ (∀ (a b : Nat) (dst : List Nat), dst.length = padTestGetSize - 1 →
      (padTestTryWriteLe a b dst).1 = .error (.InvalidSize 4 4 7)) := by
  refine ⟨?_, ?_, ?_, ?_, ?_, ?_, ?_, ?_, ?_, ?_, fun _ => rfl, rfl, ?_, ?_, ?_, ?_⟩
  · intro w v dst h
    rw [tryWriteUIntLe_ok (by omega)]
  · intro w v dst hw h
    rw [tryWriteUIntLe_err (by omega), h]
  · intro w v dst h
    rw [tryWriteUIntBe_ok (by omega)]
  · intro w v dst hw h
    rw [tryWriteUIntBe_err (by omega), h]
  · intro w v dst h
    unfold tryWriteIntLe
    rw [tryWriteUIntLe_ok (by omega)]
  · intro w v dst hw h
    unfold tryWriteIntLe
    rw [tryWriteUIntLe_err (by omega), h]
  · intro w v dst h
    unfold tryWriteIntBe
    rw [tryWriteUIntBe_ok (by omega)]
  · intro w v dst hw h
    unfold tryWriteIntBe
    rw [tryWriteUIntBe_err (by omega), h]
  · intro v dst h
    show (if 1 > dst.length
        then ((.error (.InvalidSize 1 0 dst.length) : Except Error Nat), dst)
        else (.ok 1, (if v then 1 else 0) :: dst.drop 1)).1 = .ok 1
    rw [if_neg (by omega)]
  · intro v
    rfl
  · intro w v dst h
    show (if w > dst.length
        then ((.error (.InvalidSize w 0 dst.length) : Except Error Nat), dst)
        else (.ok w, v.take w ++ dst.drop w)).1 = .ok w
    rw [if_neg (by omega)]
  · intro w v dst hw h
    show (if w > dst.length
        then ((.error (.InvalidSize w 0 dst.length) : Except Error Nat), dst)
        else (.ok w, v.take w ++ dst.drop w)).1 = .error (.InvalidSize w 0 (w - 1))
    rw [if_pos (by omega), h]
  · intro a b dst h
    obtain ⟨d0, d1, d2, d3, d4, d5, d6, d7, rest, rfl⟩ :=
      exists_cons8 dst (by rw [h]; decide)
    rw [padTestWriteLe_cons8]
    rfl
  · intro a b dst h7
    have h1 : (⟨dst, 1⟩ : StreamContainer).writeStreamLe u8EW a
        = (.ok 1, ⟨dst.take 1 ++ (natToLeBytes 1 a ++ dst.drop (1 + 1)), 1 + 1⟩) := by
      show (⟨dst, 1⟩ : StreamContainer).writeStreamLe (uintEW 1) a = _
      exact writeStreamLe_uint_ok 1 a ⟨dst, 1⟩ (by norm_num)
        (by simp only [padTestGetSize] at h7; simp; omega)
    have hl : (dst.take 1 ++ (natToLeBytes 1 a ++ dst.drop (1 + 1))).length = 7 := by
      simp only [padTestGetSize] at h7
      simp [natToLeBytes_length]
      omega
    have h2 : (⟨dst.take 1 ++ (natToLeBytes 1 a ++ dst.drop (1 + 1)), 4⟩ :
          StreamContainer).writeStreamLe u32EW b
        = (.error (.InvalidSize 4 4 7),
            ⟨dst.take 1 ++ (natToLeBytes 1 a ++ dst.drop (1 + 1)), 4⟩) := by
      show (⟨dst.take 1 ++ (natToLeBytes 1 a ++ dst.drop (1 + 1)), 4⟩ :
          StreamContainer).writeStreamLe (uintEW 4) b = _
      have h := writeStreamLe_uint_err 4 b
        ⟨dst.take 1 ++ (natToLeBytes 1 a ++ dst.drop (1 + 1)), 4⟩
        (by simp [hl]) (by simp [hl])
      simpa [hl] using h
    simp [padTestTryWriteLe, StreamContainer.incrementBy, h1, h2]

/-- Witness for C8: the `u32` `0xaabbccdd` written into exactly 4
bytes succeeds with 4 bytes written; into 3 bytes it fails with
`InvalidSize{4, 0, 3}`; and the padded struct into 7 of its 8 bytes
fails with `InvalidSize{4, 4, 7}`. -/
theorem c8_size_truthfulness_witness :
    (tryWriteUIntLe 4 0xaabbccdd [0, 0, 0, 0]).1 = .ok 4
    ∧ (tryWriteUIntLe 4 0xaabbccdd [0, 0, 0]).1 = .error (.InvalidSize 4 0 3)
    ∧ (padTestTryWriteLe 0x55 0xddccbbaa [9, 9, 9, 9, 9, 9, 9]).1
        = .error (.InvalidSize 4 4 7) := by
  refine ⟨?_, ?_, ?_⟩
  · exact c8_size_truthfulness.1 4 0xaabbccdd [0, 0, 0, 0] (by decide)
  · exact c8_size_truthfulness.2.1 4 0xaabbccdd [0, 0, 0] (by decide) (by decide)
  · exact c8_size_truthfulness.2.2.2.2.2.2.2.2.2.2.2.2.2.2.2 0x55 0xddccbbaa
      [9, 9, 9, 9, 9, 9, 9] (by decide)
